import Mathlib

/-!
Shallow embedding of the telescopic_modelling signal pipeline.

Dates are modelled as integers (day numbers); database NUMERIC values as ℚ.
Each Python module is embedded in its own namespace; a SQL query over a table
becomes a filter/sort over an explicit list of rows.  SQL `ORDER BY` leaves the
relative order of ties unspecified; we model it with the stable insertion sort,
which fixes one deterministic order consistent with the query.
-/

/-- Round-half-to-even to an integer, the rounding used by Python's `round`. -/
def rhe (x : ℚ) : ℤ :=
  if x - ⌊x⌋ < 1/2 then ⌊x⌋
  else if 1/2 < x - ⌊x⌋ then ⌊x⌋ + 1
  else if 2 ∣ ⌊x⌋ then ⌊x⌋ else ⌊x⌋ + 1

/-- Python `round(x, 4)` on a rational value. -/
def round4 (x : ℚ) : ℚ := (rhe (x * 10000) : ℚ) / 10000

/-- Python `round(x, 2)` on a rational value. -/
def round2 (x : ℚ) : ℚ := (rhe (x * 100) : ℚ) / 100

/-- Round half away from zero, the semantics of the postgres `::BIGINT` cast. -/
def rha (x : ℚ) : ℤ := if 0 ≤ x then ⌊x + 1/2⌋ else -⌊-x + 1/2⌋

/-- A row of `price_history` for one instrument: (date, adjusted_close_price, volume). -/
structure PriceRow where
  d : ℤ
  close : Option ℚ
  volume : Option ℚ
deriving DecidableEq

/-- A (period_ending, value) row of one nullable column of a quarterly statement table. -/
structure FactRow where
  pe : ℤ
  val : Option ℚ
deriving DecidableEq

namespace Valuation

/-- Embeds `ValuationSnapshotCalculator.get_strict_ttm_eps`: the up-to-4 most recent
non-null quarterly EPS values with `period_ending <= as_of_date`; fewer than 2 fails,
otherwise TTM EPS is `sum + avg * (4 - count)` rounded to 4 decimals, with the
completeness flag `count == 4`. -/
def get_strict_ttm_eps (facts : List FactRow) (asOf : ℤ) : Option (ℚ × Bool) :=
  let rows := (facts.filter fun r => decide (r.pe ≤ asOf) && r.val.isSome).insertionSort
    fun a b => b.pe ≤ a.pe
  let eps := (rows.take 4).filterMap (·.val)
  if eps.length < 2 then none
  else
    let s := eps.sum
    let avg := s / eps.length
    some (round4 (s + avg * (4 - (eps.length : ℚ))), eps.length == 4)

/-- Embeds `ValuationSnapshotCalculator.get_entry_price`: the adjusted close of the
latest price row with `date <= as_of_date` (the stored close may itself be null). -/
def get_entry_price (prices : List PriceRow) (asOf : ℤ) : Option ℚ :=
  (((prices.filter fun r => decide (r.d ≤ asOf)).insertionSort
    fun a b => b.d ≤ a.d).head?).bind (·.close)

/-- One valuation snapshot row as persisted by `process_ticker`. -/
structure SnapOut where
  ttmEps : ℚ
  complete : Bool
  price : ℚ
  ttmPe : Option ℚ
deriving DecidableEq

/-- The list of EPS values `get_strict_ttm_eps` works on: the up-to-4 most recent
non-null quarterly EPS values with `period_ending <= as_of_date` (so its length is the
quarter count k of the estimator's case split). -/
def ttmValues (facts : List FactRow) (asOf : ℤ) : List ℚ :=
  ((((facts.filter fun r => decide (r.pe ≤ asOf) && r.val.isSome).insertionSort
    fun a b => b.pe ≤ a.pe).take 4)).filterMap (·.val)

/-- Four quarterly EPS facts used in concrete evaluations. -/
def demoFacts : List FactRow := [⟨1, some 1⟩, ⟨2, some 2⟩, ⟨3, some 3⟩, ⟨4, some 4⟩]

/-- Embeds the per-quarter-end body of `ValuationSnapshotCalculator.process_ticker`:
skip when TTM EPS or price is unavailable; `ttm_pe = price / ttm_eps` when
`ttm_eps != 0`, and the stored `ttm_pe` is dropped when it is falsy (None or 0). -/
def snapshotRow (facts : List FactRow) (prices : List PriceRow) (asOf : ℤ) :
    Option SnapOut :=
  match get_strict_ttm_eps facts asOf with
  | none => none
  | some (ttm, complete) =>
    match get_entry_price prices asOf with
    | none => none
    | some p =>
      let pe0 : Option ℚ := if ttm ≠ 0 then some (p / ttm) else none
      some ⟨ttm, complete, round2 p,
        match pe0 with
        | some x => if x ≠ 0 then some (round2 x) else none
        | none => none⟩

end Valuation

namespace Momentum

/-- Embeds `MomentumSignalCalculator.get_price_on_or_before`: the adjusted close of
the latest price row with `date <= as_of_date`. -/
def get_price_on_or_before (prices : List PriceRow) (asOf : ℤ) : Option ℚ :=
  (((prices.filter fun r => decide (r.d ≤ asOf)).insertionSort
    fun a b => b.d ≤ a.d).head?).bind (·.close)

/-- The `fallback_thresholds` mapping (63 ↦ 50, 126 ↦ 100, 252 ↦ 200), defaulting to
`int(n_days * 0.8)`. -/
def fallbackThreshold (n : ℕ) : ℕ :=
  if n = 63 then 50 else if n = 126 then 100 else if n = 252 then 200 else 4 * n / 5

/-- The ascending list of non-null-priced sessions in the calendar window
`[as_of_date - (n_days + 90), as_of_date]` queried by `get_price_n_days_before`. -/
def sessionWindow (prices : List PriceRow) (asOf : ℤ) (n : ℕ) : List PriceRow :=
  (prices.filter fun r =>
    decide (asOf - ((n : ℤ) + 90) ≤ r.d) && decide (r.d ≤ asOf) && r.close.isSome).insertionSort
    fun a b => a.d ≤ b.d

/-- Embeds `MomentumSignalCalculator.get_price_n_days_before`: none when fewer than the
threshold number of sessions is present, otherwise `rows[min_required - 1]` — the
threshold-th session counted from the START of the ascending window. -/
def get_price_n_days_before (prices : List PriceRow) (asOf : ℤ) (n : ℕ) : Option ℚ :=
  let rows := sessionWindow prices asOf n
  if rows.length < fallbackThreshold n then none
  else (rows[fallbackThreshold n - 1]?).bind (·.close)

/-- The claim's reading of the lookback: the price used is the `n`-th priced session
counted from the END of the ascending window (subject to the same minimum). -/
def claimNthFromEnd (prices : List PriceRow) (asOf : ℤ) (n : ℕ) : Option ℚ :=
  let rows := sessionWindow prices asOf n
  if rows.length < fallbackThreshold n then none
  else (rows[rows.length - n]?).bind (·.close)

/-- Embeds `MomentumSignalCalculator.get_avg_volume_3m`: the mean volume over the last
90 calendar days, cast to BIGINT; none when no row matched (AVG of nothing is NULL). -/
def get_avg_volume_3m (prices : List PriceRow) (asOf : ℤ) : Option ℤ :=
  let vols := (prices.filter fun r =>
    decide (asOf - 90 ≤ r.d) && decide (r.d ≤ asOf) && r.volume.isSome).filterMap (·.volume)
  if vols.isEmpty then none else some (rha (vols.sum / vols.length))

/-- One momentum signal row as persisted by `process_all`. -/
structure MomOut where
  m3 : ℚ
  m6 : ℚ
  m12 : ℚ
  avgVol : ℤ
deriving DecidableEq

/-- Embeds the per-quarter-end body of `MomentumSignalCalculator.process_all`: all three
lookback prices, the current price and the average volume must be present (all-or-nothing);
a zero lookback price raises ZeroDivisionError in Python and the row is dropped. -/
def momentumRow (prices : List PriceRow) (asOf : ℤ) : Option MomOut :=
  match get_price_on_or_before prices asOf, get_price_n_days_before prices asOf 63,
        get_price_n_days_before prices asOf 126, get_price_n_days_before prices asOf 252,
        get_avg_volume_3m prices asOf with
  | some cp, some p3, some p6, some p12, some av =>
    if p3 = 0 ∨ p6 = 0 ∨ p12 = 0 then none
    else some ⟨round4 (cp / p3 - 1), round4 (cp / p6 - 1), round4 (cp / p12 - 1), av⟩
  | _, _, _, _, _ => none

/-- Sixty-three consecutive priced sessions ending at date 100 (dates 38..100,
price = date). -/
def demoShort : List PriceRow :=
  (List.range 63).map fun i => ⟨38 + (i : ℤ), some (38 + (i : ℚ)), none⟩

/-- Three hundred consecutive priced sessions ending at date 1000 (dates 701..1000,
price = date), the claim's contiguous 300-session history. -/
def demoLong : List PriceRow :=
  (List.range 300).map fun i => ⟨701 + (i : ℤ), some (701 + (i : ℚ)), none⟩

end Momentum

namespace Fundamental

/-- The latest row with `period_ending <= as_of_date` and a non-null value, as selected
by `get_quarter_value`'s query. -/
def latestFact (facts : List FactRow) (asOf : ℤ) : Option FactRow :=
  ((facts.filter fun r => decide (r.pe ≤ asOf) && r.val.isSome).insertionSort
    fun a b => b.pe ≤ a.pe).head?

/-- Embeds `FundamentalScoreCalculator.get_quarter_value`: the most recent non-null value
with `period_ending <= as_of_date`. -/
def get_quarter_value (facts : List FactRow) (asOf : ℤ) : Option ℚ :=
  (latestFact facts asOf).bind (·.val)

/-- Embeds `FundamentalScoreCalculator.get_previous_quarter_value`: the most recent
non-null value with `period_ending` STRICTLY BEFORE the rebalance date passed in. -/
def get_previous_quarter_value (facts : List FactRow) (asOf : ℤ) : Option ℚ :=
  (((facts.filter fun r => decide (r.pe < asOf) && r.val.isSome).insertionSort
    fun a b => b.pe ≤ a.pe).head?).bind (·.val)

/-- The claim's previous value: the most recent non-null fact strictly before the
period of the CURRENT fact (rather than strictly before the rebalance date). -/
def claimPrevious (facts : List FactRow) (asOf : ℤ) : Option ℚ :=
  match latestFact facts asOf with
  | none => none
  | some cur => get_previous_quarter_value facts cur.pe

/-- One fundamental score row as persisted by `process_all`. -/
structure FundOut where
  epsGrowth : ℚ
  revGrowth : ℚ
  roe : ℚ
  debtToEquity : ℚ
  netMargin : ℚ
  fcfMargin : ℚ
deriving DecidableEq

/-- Embeds the per-quarter-end body of `FundamentalScoreCalculator.process_all`: any
missing input or a zero equity/revenue skips the row; a zero previous EPS/revenue makes
the growth None, and `round(None, 4)` raises, so those rows are skipped as well. -/
def fundamentalRow (epsT revT niT equityT debtT fcfT : List FactRow) (asOf : ℤ) :
    Option FundOut :=
  match get_quarter_value epsT asOf, get_previous_quarter_value epsT asOf,
        get_quarter_value revT asOf, get_previous_quarter_value revT asOf,
        get_quarter_value niT asOf, get_quarter_value equityT asOf,
        get_quarter_value debtT asOf, get_quarter_value fcfT asOf with
  | some epsv, some epsPrev, some rev, some revPrev, some ni, some equity, some debt,
    some fcf =>
    if equity = 0 ∨ rev = 0 then none
    else if epsPrev = 0 ∨ revPrev = 0 then none
    else some ⟨round4 ((epsv - epsPrev) / |epsPrev|), round4 ((rev - revPrev) / |revPrev|),
      round4 (ni / equity), round4 (debt / equity), round4 (ni / rev), round4 (fcf / rev)⟩
  | _, _, _, _, _, _, _, _ => none

end Fundamental

/-- The table columns read by the per-instrument signal calculators, for one instrument. -/
structure Store where
  prices : List PriceRow
  dilEpsQ : List FactRow
  basicEpsQ : List FactRow
  revQ : List FactRow
  niQ : List FactRow
  equityQ : List FactRow
  debtQ : List FactRow
  fcfQ : List FactRow
deriving DecidableEq

/-- The price rows dated on or before D. -/
def pricesUpTo (l : List PriceRow) (D : ℤ) : List PriceRow :=
  l.filter fun r => decide (r.d ≤ D)

/-- The fact rows with period_ending on or before D. -/
def factsUpTo (l : List FactRow) (D : ℤ) : List FactRow :=
  l.filter fun r => decide (r.pe ≤ D)

/-- Two stores agree on every row dated on or before D (rows after D may differ freely). -/
def agreeUpTo (s₁ s₂ : Store) (D : ℤ) : Prop :=
  pricesUpTo s₁.prices D = pricesUpTo s₂.prices D ∧
  factsUpTo s₁.dilEpsQ D = factsUpTo s₂.dilEpsQ D ∧
  factsUpTo s₁.basicEpsQ D = factsUpTo s₂.basicEpsQ D ∧
  factsUpTo s₁.revQ D = factsUpTo s₂.revQ D ∧
  factsUpTo s₁.niQ D = factsUpTo s₂.niQ D ∧
  factsUpTo s₁.equityQ D = factsUpTo s₂.equityQ D ∧
  factsUpTo s₁.debtQ D = factsUpTo s₂.debtQ D ∧
  factsUpTo s₁.fcfQ D = factsUpTo s₂.fcfQ D

namespace Backtest

/-- A `price_history` row keyed by ticker, as read by the backtest. -/
structure BPriceRow where
  ticker : String
  d : ℤ
  close : Option ℚ
deriving DecidableEq

/-- Embeds `BacktestCompositeSignal.get_price`: the FIRST price row with `date >= dt`
(ascending order, LIMIT 1); used for both the entry and the exit price. -/
def get_price (prices : List BPriceRow) (t : String) (dt : ℤ) : Option ℚ :=
  (((prices.filter fun r => r.ticker == t && decide (dt ≤ r.d)).insertionSort
    fun a b => a.d ≤ b.d).head?).bind (·.close)

/-- The claim's entry price: the LAST priced session on or before as_of_date. -/
def claimEntryPrice (prices : List BPriceRow) (t : String) (dt : ℤ) : Option ℚ :=
  (((prices.filter fun r => r.ticker == t && decide (r.d ≤ dt)).insertionSort
    fun a b => b.d ≤ a.d).head?).bind (·.close)

/-- Embeds the per-ticker loop of `run`: the forward return `(exit - entry)/entry`,
kept only when both prices are truthy (present and nonzero). -/
def actualReturns (prices : List BPriceRow) (tickers : List String) (asOf endD : ℤ) :
    List (String × ℚ) :=
  tickers.filterMap fun t =>
    match get_price prices t asOf, get_price prices t endD with
    | some ps, some px => if ps ≠ 0 ∧ px ≠ 0 then some (t, (px - ps) / ps) else none
    | _, _ => none

/-- The top-N tickers by predicted composite score (descending, stable). -/
def topPredicted (entries : List (String × ℚ × ℕ)) (topN : ℕ) : List String :=
  ((entries.insertionSort fun a b => b.2.1 ≤ a.2.1).take topN).map (·.1)

/-- The bottom-N tickers by predicted composite score (ascending, stable). -/
def bottomPredicted (entries : List (String × ℚ × ℕ)) (topN : ℕ) : List String :=
  ((entries.insertionSort fun a b => a.2.1 ≤ b.2.1).take topN).map (·.1)

/-- Closed form of scipy's `spearmanr` on two equal-length lists of DISTINCT ranks
(in that case it is the Pearson correlation of the rank vectors,
`1 - 6 * sum d^2 / (n (n^2 - 1))`). -/
def spearmanOfRanks (xs ys : List ℕ) : ℚ :=
  let n : ℚ := xs.length
  1 - 6 * (((xs.zip ys).map fun p => ((p.1 : ℚ) - (p.2 : ℚ)) ^ 2).sum) / (n * (n ^ 2 - 1))

/-- `round(np.mean(xs), 4)`; none for the empty list (np.mean of nothing is nan). -/
def meanRounded (xs : List ℚ) : Option ℚ :=
  if xs.isEmpty then none else some (round4 (xs.sum / xs.length))

/-- A `composite_signal_backtest_detail` row. -/
structure Detail where
  ticker : String
  score : ℚ
  predRank : ℕ
  ret : ℚ
  actRank : ℕ
  matchedTop : Bool
  matchedBottom : Bool
deriving DecidableEq

/-- A `composite_signal_backtest_summary` row. -/
structure Summary where
  spearman : ℚ
  overlap : ℕ
  nEligible : ℕ
  avgTop : Option ℚ
  avgBottom : Option ℚ
deriving DecidableEq

/-- One detail row of the backtest loop: the score-map lookup (skipped when the ticker
is not in the cohort), the realized rank from the enumerated position, and the top/
bottom basket membership flags. -/
def detailRow (entries : List (String × ℚ × ℕ)) (tp bp : List String)
    (p : ℕ × String × ℚ) : Option Detail :=
  match entries.find? fun e => e.1 == p.2.1 with
  | none => none
  | some e =>
    some ⟨p.2.1, e.2.1, e.2.2, p.2.2, p.1 + 1, tp.contains p.2.1, bp.contains p.2.1⟩

/-- Embeds one (as_of_date, holding period) iteration of `BacktestCompositeSignal.run`:
entries are the composite rows (ticker, score, predicted rank) of the cohort.  Skips
when fewer than `2 * top_n` valid returns exist.  Realized rank is the 1-based position
in the stable descending sort of returns (tickers are unique per cohort, so the rank
dict lookup is the row's own position). -/
def runForDate (prices : List BPriceRow) (entries : List (String × ℚ × ℕ))
    (asOf h : ℤ) (topN : ℕ) : Option (List Detail × Summary) :=
  let rets := actualReturns prices (entries.map (·.1)) asOf (asOf + h)
  if rets.length < 2 * topN then none
  else
    let sorted := rets.insertionSort fun a b => b.2 ≤ a.2
    let detail := sorted.enum.filterMap
      (detailRow entries (topPredicted entries topN) (bottomPredicted entries topN))
    let overlap := (detail.filter (·.matchedTop)).length
    some (detail,
      ⟨round4 (spearmanOfRanks (detail.map (·.predRank)) (detail.map (·.actRank))),
       overlap, rets.length,
       meanRounded ((detail.filter (·.matchedTop)).map (·.ret)),
       meanRounded ((detail.filter (·.matchedBottom)).map (·.ret))⟩)

/-- The top-N tickers by realized forward return (descending, stable). -/
def topRealized (prices : List BPriceRow) (entries : List (String × ℚ × ℕ))
    (asOf h : ℤ) (topN : ℕ) : List String :=
  ((((actualReturns prices (entries.map (·.1)) asOf (asOf + h)).insertionSort
    fun a b => b.2 ≤ a.2).take topN)).map (·.1)

/-- The claim's overlap statistic: the size of the intersection of the top-N by
predicted score and the top-N by realized forward return. -/
def claimOverlap (prices : List BPriceRow) (entries : List (String × ℚ × ℕ))
    (asOf h : ℤ) (topN : ℕ) : ℕ :=
  ((topPredicted entries topN).filter fun t =>
    (topRealized prices entries asOf h topN).contains t).length

/-- Prices around as_of_date 100 for one instrument: sessions the day before and the
day after the as_of_date, and one at the 30-day exit. -/
def demoPrices1 : List BPriceRow :=
  [⟨"A", 99, some 10⟩, ⟨"A", 101, some 20⟩, ⟨"A", 130, some 40⟩]

/-- Prices for four instruments: every entry price is 1 at date 100 and the exits at
date 130 reverse the predicted order (A returns least, D most). -/
def demoPrices4 : List BPriceRow :=
  [⟨"A", 100, some 1⟩, ⟨"A", 130, some 2⟩,
   ⟨"B", 100, some 1⟩, ⟨"B", 130, some 3⟩,
   ⟨"C", 100, some 1⟩, ⟨"C", 130, some 4⟩,
   ⟨"D", 100, some 1⟩, ⟨"D", 130, some 5⟩]

/-- Composite entries for the four instruments: A best predicted, D worst. -/
def demoEntries : List (String × ℚ × ℕ) := [("A", 4, 1), ("B", 3, 2), ("C", 2, 3), ("D", 1, 4)]

end Backtest

namespace TargetPE

/-- A `valuation_snapshots` row as read by the target-PE computation. -/
structure SnapRow where
  ticker : String
  asOf : ℤ
  ttmEps : Option ℚ
  price : Option ℚ
deriving DecidableEq

/-- A `derived_metrics` row as touched by the target-PE computation. -/
structure DRow where
  ticker : String
  fiscalYear : ℤ
  periodEnding : ℤ
  targetPe : Option ℚ
deriving DecidableEq

/-- The WHERE clause of `fetch_required_records` for a fixed derived row: target_pe
still null, same ticker, positive ttm_eps and entry_price, and the snapshot dated
ON OR BEFORE the fiscal year's period_ending. -/
def qualifies (d : DRow) (v : SnapRow) : Bool :=
  d.targetPe.isNone && (v.ticker == d.ticker) &&
  (match v.ttmEps with | some e => decide (0 < e) | none => false) &&
  (match v.price with | some p => decide (0 < p) | none => false) &&
  decide (v.asOf ≤ d.periodEnding)

/-- Embeds `fetch_required_records`: every join row passing the WHERE clause, grouped
by derived row (the join order within a derived row follows the snapshot list). -/
def fetch_required_records (derived : List DRow) (snaps : List SnapRow) :
    List (DRow × SnapRow) :=
  derived.flatMap fun d => (snaps.filter (qualifies d)).map fun v => (d, v)

/-- The value one fetched row writes: `round(entry_price / ttm_eps, 2)`. -/
def updVal (v : SnapRow) : Option ℚ :=
  match v.price, v.ttmEps with
  | some p, some e => some (round2 (p / e))
  | _, _ => none

/-- Embeds `compute_and_save`: one `(value, ticker, fiscal_year)` update per fetched row. -/
def computeUpdates (rows : List (DRow × SnapRow)) : List (ℚ × String × ℤ) :=
  rows.filterMap fun p =>
    match updVal p.2 with
    | some q => some (q, p.1.ticker, p.1.fiscalYear)
    | none => none

/-- Embeds the SQL UPDATE loop: updates applied in order, a later row for the same
(ticker, fiscal_year) overwriting an earlier one. -/
def applyUpdates (derived : List DRow) (updates : List (ℚ × String × ℤ)) : List DRow :=
  updates.foldl (fun acc u =>
    acc.map fun r =>
      if r.ticker == u.2.1 && r.fiscalYear == u.2.2 then { r with targetPe := some u.1 }
      else r)
    derived

/-- The full target-PE run over the given derived-metrics and snapshot tables. -/
def runTargetPE (derived : List DRow) (snaps : List SnapRow) : List DRow :=
  applyUpdates derived (computeUpdates (fetch_required_records derived snaps))

/-- The target P/E the run leaves on a derived row: that of the LAST qualifying
snapshot in list order, if any. -/
def lastQualifying (snaps : List SnapRow) (d : DRow) : Option ℚ :=
  ((snaps.filter (qualifies d)).getLast?).bind updVal

/-- The row-level effect of the update loop on one derived row. -/
def updLoop (us : List (ℚ × String × ℤ)) (d : DRow) : DRow :=
  us.foldl (fun r u =>
    if r.ticker == u.2.1 && r.fiscalYear == u.2.2 then { r with targetPe := some u.1 }
    else r) d

/-- One derived-metrics row (fiscal 2020, period ending at day 1000) with no target yet. -/
def demoDerived : List DRow := [⟨"A", 2020, 1000, none⟩]

/-- A single snapshot dated 100 days BEFORE the period ending, with positive EPS and price. -/
def demoSnaps : List SnapRow := [⟨"A", 900, some 2, some 10⟩]

end TargetPE

namespace EpsCagr

/-- The distinct fiscal years present for a ticker, ascending (the sorted keys of the
`eps_by_year` dict). -/
def sortedYears (data : List (ℕ × ℚ)) : List ℕ :=
  ((data.map (·.1)).dedup).insertionSort (· ≤ ·)

/-- The `eps_by_year` dict lookup: the last binding for a year wins. -/
def epsOf (data : List (ℕ × ℚ)) (y : ℕ) : Option ℚ :=
  ((data.filter fun p => p.1 == y).getLast?).map (·.2)

/-- Embeds the per-ticker loop of `compute_eps_cagr`: for each POSITION i >= 2 in the
sorted list of available fiscal years, pair the year at i with the year at i - 2 and
keep the growth quotient `eps / eps_2y_ago` when both are strictly positive. -/
def epsCagrTargets (data : List (ℕ × ℚ)) : List (ℕ × ℚ) :=
  let ys := sortedYears data
  (List.range ys.length).filterMap fun i =>
    if i < 2 then none
    else
      match epsOf data (ys.getD i 0), epsOf data (ys.getD (i - 2) 0) with
      | some e, some e2 =>
        if e ≤ 0 ∨ e2 ≤ 0 then none else some (ys.getD i 0, e / e2)
      | _, _ => none

/-- The CAGR value written for a growth quotient q: `q ** 0.5 - 1`. -/
noncomputable def cagrVal (q : ℚ) : ℝ := Real.sqrt (q : ℝ) - 1

/-- The updates `compute_eps_cagr` sends to the database, as (fiscal_year, value). -/
noncomputable def epsCagrUpdates (data : List (ℕ × ℚ)) : List (ℕ × ℝ) :=
  (epsCagrTargets data).map fun p => (p.1, cagrVal p.2)

end EpsCagr

namespace Composite

/-- Round-half-to-even to an integer over ℝ (Python's `round`). -/
noncomputable def rheR (x : ℝ) : ℤ :=
  if x - ⌊x⌋ < 1/2 then ⌊x⌋
  else if 1/2 < x - ⌊x⌋ then ⌊x⌋ + 1
  else if 2 ∣ ⌊x⌋ then ⌊x⌋ else ⌊x⌋ + 1

/-- Python `round(x, 4)` over ℝ. -/
noncomputable def round4R (x : ℝ) : ℝ := (rheR (x * 10000) : ℝ) / 10000

/-- One row of the composite-input join, in the SELECT's column order. -/
structure CInput where
  ticker : String
  valuationSignal : Option ℝ
  m3 : Option ℝ
  m6 : Option ℝ
  m12 : Option ℝ
  epsGrowth : Option ℝ
  revGrowth : Option ℝ
  roe : Option ℝ
  netMargin : Option ℝ

/-- A `composite_signals` row as persisted by `process_quarter`. -/
structure CScore where
  ticker : String
  score : ℝ
  rank : ℕ
  percentile : ℝ

/-- np.mean. -/
noncomputable def npMean (xs : List ℝ) : ℝ := xs.sum / xs.length

/-- np.std: the POPULATION standard deviation (ddof = 0). -/
noncomputable def npStd (xs : List ℝ) : ℝ :=
  Real.sqrt (npMean (xs.map fun x => (x - npMean xs) ^ 2))

/-- Embeds `CompositeSignalCalculator.compute_zscores`. -/
noncomputable def compute_zscores (xs : List ℝ) : List ℝ :=
  let m := npMean xs
  let s := npStd xs
  xs.map fun x => if s ≠ 0 then (x - m) / s else 0

/-- The cohort: rows with any of the eight features null are dropped. -/
def cohortRows (rows : List CInput) : List CInput :=
  rows.filter fun r => r.valuationSignal.isSome && r.m3.isSome && r.m6.isSome &&
    r.m12.isSome && r.epsGrowth.isSome && r.revGrowth.isSome && r.roe.isSome &&
    r.netMargin.isSome

/-- The z-score column for one feature over the cohort. -/
noncomputable def zOf (f : CInput → Option ℝ) (rows : List CInput) : List ℝ :=
  compute_zscores ((cohortRows rows).map fun r => (f r).getD 0)

/-- A placeholder input row (never produced by a cohort lookup in range). -/
def blankRow : CInput := ⟨"", none, none, none, none, none, none, none, none⟩

/-- The per-instrument composite scores in cohort order: sum of the seven positive
z-scores minus the valuation z-score, rounded to 4 decimals before sorting. -/
noncomputable def scoresList (rows : List CInput) : List (String × ℝ) :=
  let cs := cohortRows rows
  (List.range cs.length).map fun i =>
    ((cs.getD i blankRow).ticker,
     round4R ((zOf (·.epsGrowth) rows).getD i 0 + (zOf (·.revGrowth) rows).getD i 0 +
       (zOf (·.roe) rows).getD i 0 + (zOf (·.netMargin) rows).getD i 0 +
       (zOf (·.m3) rows).getD i 0 + (zOf (·.m6) rows).getD i 0 +
       (zOf (·.m12) rows).getD i 0 - (zOf (·.valuationSignal) rows).getD i 0))

/-- Embeds `CompositeSignalCalculator.process_quarter`: stable sort by rounded score
descending; rank is the 1-based position; percentile is `(N - rank)/(N - 1)` rounded
to 4 decimals for N > 1, else 0. -/
noncomputable def process_quarter (rows : List CInput) : List CScore :=
  let scores := (scoresList rows).insertionSort fun a b => b.2 ≤ a.2
  let total := scores.length
  scores.enum.map fun p =>
    ⟨p.2.1, p.2.2, p.1 + 1,
     if 1 < total then round4R (((total : ℝ) - ((p.1 : ℝ) + 1)) / ((total : ℝ) - 1))
     else 0⟩

/-- Four cohort rows with identical feature vectors (every feature 1). -/
def demoRows : List CInput :=
  [⟨"A", some 1, some 1, some 1, some 1, some 1, some 1, some 1, some 1⟩,
   ⟨"B", some 1, some 1, some 1, some 1, some 1, some 1, some 1, some 1⟩,
   ⟨"C", some 1, some 1, some 1, some 1, some 1, some 1, some 1, some 1⟩,
   ⟨"D", some 1, some 1, some 1, some 1, some 1, some 1, some 1, some 1⟩]

end Composite

namespace DerivedMetrics

/-- A calendar date; only the year takes part in any computation here. -/
structure CalDate where
  year : ℤ
  month : ℕ
  day : ℕ
deriving DecidableEq

/-- One row of the annual income/balance/cash-flow join, in SELECT order, as fetched
by `calculate_metrics` (every statement column is nullable). -/
structure ARow where
  periodEnding : CalDate
  dilutedEps : Option ℚ
  totalRevenue : Option ℚ
  netIncome : Option ℚ
  operatingIncome : Option ℚ
  stockholdersEquity : Option ℚ
  totalAssets : Option ℚ
  totalDebt : Option ℚ
  currentAssets : Option ℚ
  currentLiabilities : Option ℚ
  operatingCashFlow : Option ℚ
  freeCashFlow : Option ℚ
  dividendsPaid : Option ℚ
deriving DecidableEq

/-- One derived-metrics record as produced by `calculate_metrics`. -/
structure MetricRec where
  fiscalYear : ℤ
  periodEnding : CalDate
  eps : ℚ
  revenue : ℚ
  netIncome : ℚ
  operatingIncome : ℚ
  stockholdersEquity : ℚ
  totalAssets : ℚ
  totalDebt : ℚ
  currentAssets : ℚ
  currentLiabilities : ℚ
  operatingCashFlow : ℚ
  freeCashFlow : ℚ
  dividendsPaid : ℚ
deriving DecidableEq

/-- The retention check: `any(field is None for field in row)` skips the row. -/
def rowComplete (r : ARow) : Bool :=
  r.dilutedEps.isSome && r.totalRevenue.isSome && r.netIncome.isSome &&
  r.operatingIncome.isSome && r.stockholdersEquity.isSome && r.totalAssets.isSome &&
  r.totalDebt.isSome && r.currentAssets.isSome && r.currentLiabilities.isSome &&
  r.operatingCashFlow.isSome && r.freeCashFlow.isSome && r.dividendsPaid.isSome

/-- Embeds `DerivedMetricsCalculator.calculate_metrics` on the fetched rows (in query
order): rows with any null field are skipped; `fiscal_year = period_ending.year - 1`
unconditionally. -/
def calculate_metrics (rows : List ARow) : List MetricRec :=
  rows.filterMap fun r =>
    if rowComplete r then
      some ⟨r.periodEnding.year - 1, r.periodEnding,
        r.dilutedEps.getD 0, r.totalRevenue.getD 0, r.netIncome.getD 0,
        r.operatingIncome.getD 0, r.stockholdersEquity.getD 0, r.totalAssets.getD 0,
        r.totalDebt.getD 0, r.currentAssets.getD 0, r.currentLiabilities.getD 0,
        r.operatingCashFlow.getD 0, r.freeCashFlow.getD 0, r.dividendsPaid.getD 0⟩
    else none

/-- A complete annual row with a December 31, 2022 period ending. -/
def demoARow : ARow :=
  ⟨⟨2022, 12, 31⟩, some 1, some 2, some 3, some 4, some 5, some 6, some 7, some 8,
   some 9, some 10, some 11, some 12⟩

/-- The record `calculate_metrics` produces from `demoARow`. -/
def demoMetric : MetricRec :=
  ⟨2021, ⟨2022, 12, 31⟩, 1, 2, 3, 4, 5, 6, 7, 8, 9, 10, 11, 12⟩

end DerivedMetrics

/-- A store whose rows are all dated on or before 100. -/
def demoStoreA : Store :=
  ⟨[⟨50, some 10, some 5⟩, ⟨60, some 12, some 6⟩],
   [⟨40, some 1⟩, ⟨45, some 2⟩], [⟨40, some 2⟩, ⟨45, some 3⟩],
   [⟨40, some 3⟩], [⟨40, some 4⟩], [⟨40, some 5⟩], [⟨40, some 6⟩], [⟨40, some 7⟩]⟩

/-- The same store with extra rows dated after 100 in every table. -/
def demoStoreB : Store :=
  ⟨[⟨50, some 10, some 5⟩, ⟨60, some 12, some 6⟩, ⟨200, some 99, some 99⟩],
   [⟨40, some 1⟩, ⟨45, some 2⟩, ⟨200, some 9⟩], [⟨40, some 2⟩, ⟨45, some 3⟩, ⟨200, some 9⟩],
   [⟨40, some 3⟩, ⟨200, some 9⟩], [⟨40, some 4⟩, ⟨200, some 9⟩],
   [⟨40, some 5⟩, ⟨200, some 9⟩], [⟨40, some 6⟩, ⟨200, some 9⟩],
   [⟨40, some 7⟩, ⟨200, some 9⟩]⟩

/-! ## Theorems -/

/-- C10: every annual record retained by the growth-metrics aggregation stores
`fiscal_year = period_ending.year - 1`, unconditionally (regardless of month/day). -/
theorem fiscal_year_mapping (rows : List DerivedMetrics.ARow)
    (m : DerivedMetrics.MetricRec) (hm : m ∈ DerivedMetrics.calculate_metrics rows) :
    m.fiscalYear = m.periodEnding.year - 1 := by
  unfold DerivedMetrics.calculate_metrics at hm
  rw [List.mem_filterMap] at hm
  obtain ⟨r, _, hr⟩ := hm
  by_cases h : DerivedMetrics.rowComplete r
  · rw [if_pos h] at hr
    cases hr
    rfl
  · rw [if_neg h] at hr
    exact absurd hr (by simp)

set_option maxRecDepth 4000 in
/-- C10 witness: a December 31, 2022 period ending is retained and assigned
fiscal year 2021. -/
theorem fiscal_year_mapping_witness :
    DerivedMetrics.demoMetric ∈ DerivedMetrics.calculate_metrics [DerivedMetrics.demoARow] ∧
    DerivedMetrics.demoMetric.fiscalYear = DerivedMetrics.demoMetric.periodEnding.year - 1 :=
  ⟨by with_unfolding_all decide,
   fiscal_year_mapping [DerivedMetrics.demoARow] DerivedMetrics.demoMetric
     (by with_unfolding_all decide)⟩

/-- C5: counterexample — with four quarters of EPS 0.00001 each, the estimator returns
`round(0.00004, 4) = 0`, not the exact sum `0.00004`, so the k = 4 case does not return
"exactly the sum of the four values". -/
theorem ttm_rounding_counterexample :
    Valuation.get_strict_ttm_eps
      [⟨1, some (1/100000)⟩, ⟨2, some (1/100000)⟩, ⟨3, some (1/100000)⟩,
       ⟨4, some (1/100000)⟩] 10 = some (0, true) ∧
    (1/100000 + 1/100000 + 1/100000 + 1/100000 : ℚ) ≠ 0 := by
  constructor
  · with_unfolding_all decide
  · with_unfolding_all decide

/-- C5 (amended): with k the number of values selected by the query (at most 4),
the estimator returns none for k < 2; for k >= 2 it returns
`round(sum + (sum/k) * (4 - k), 4)` with completeness flag `k == 4`; in particular for
k = 4 it returns the ROUNDED sum `round(sum, 4)` with flag true. -/
theorem ttm_estimator_cases (facts : List FactRow) (asOf : ℤ) :
    ((Valuation.ttmValues facts asOf).length < 2 →
      Valuation.get_strict_ttm_eps facts asOf = none) ∧
    (2 ≤ (Valuation.ttmValues facts asOf).length →
      Valuation.get_strict_ttm_eps facts asOf =
        some (round4 ((Valuation.ttmValues facts asOf).sum +
            ((Valuation.ttmValues facts asOf).sum / (Valuation.ttmValues facts asOf).length) *
              (4 - ((Valuation.ttmValues facts asOf).length : ℚ))),
          (Valuation.ttmValues facts asOf).length == 4)) ∧
    ((Valuation.ttmValues facts asOf).length = 4 →
      Valuation.get_strict_ttm_eps facts asOf =
        some (round4 ((Valuation.ttmValues facts asOf).sum), true)) ∧
    (Valuation.ttmValues facts asOf).length ≤ 4 := by
  have hlen : (Valuation.ttmValues facts asOf).length ≤ 4 := by
    unfold Valuation.ttmValues
    calc (List.filterMap (fun r => r.val) _).length
        ≤ (((facts.filter fun r => decide (r.pe ≤ asOf) && r.val.isSome).insertionSort
            fun a b => b.pe ≤ a.pe).take 4).length := List.length_filterMap_le _ _
      _ ≤ 4 := List.length_take_le 4 _
  have hdef : Valuation.get_strict_ttm_eps facts asOf =
      if (Valuation.ttmValues facts asOf).length < 2 then none
      else some (round4 ((Valuation.ttmValues facts asOf).sum +
          ((Valuation.ttmValues facts asOf).sum / (Valuation.ttmValues facts asOf).length) *
            (4 - ((Valuation.ttmValues facts asOf).length : ℚ))),
        (Valuation.ttmValues facts asOf).length == 4) := rfl
  refine ⟨?_, ?_, ?_, hlen⟩
  · intro h
    rw [hdef, if_pos h]
  · intro h
    rw [hdef, if_neg (by omega)]
  · intro h
    rw [hdef, if_neg (by omega), h]
    norm_num

/-- C5 witness: four quarters of EPS 1, 2, 3, 4 at as_of_date 10 yield the rounded sum
10 and the completeness flag true. -/
theorem ttm_estimator_cases_witness :
    (Valuation.ttmValues Valuation.demoFacts 10).length = 4 ∧
    Valuation.get_strict_ttm_eps Valuation.demoFacts 10 =
      some (round4 ((Valuation.ttmValues Valuation.demoFacts 10).sum), true) :=
  ⟨by with_unfolding_all decide,
   (ttm_estimator_cases Valuation.demoFacts 10).2.2.1 (by with_unfolding_all decide)⟩

/-- C7: counterexample — with facts at periods 10 and 20 and rebalance date 30, the
"previous" value the code uses equals the current one (both read the period-20 fact),
while the claim prescribes the period-10 fact; two distinct facts exist at or before
the rebalance date, yet current and previous are the same fact. -/
theorem previous_quarter_counterexample :
    Fundamental.get_quarter_value [⟨10, some 1⟩, ⟨20, some 5⟩] 30 = some 5 ∧
    Fundamental.get_previous_quarter_value [⟨10, some 1⟩, ⟨20, some 5⟩] 30 = some 5 ∧
    Fundamental.claimPrevious [⟨10, some 1⟩, ⟨20, some 5⟩] 30 = some 1 ∧
    (5 : ℚ) ≠ 1 := by
  refine ⟨?_, ?_, ?_, ?_⟩ <;> with_unfolding_all decide

instance : IsTotal FactRow fun a b => b.pe ≤ a.pe := ⟨fun a b => le_total b.pe a.pe⟩

instance : IsTrans FactRow fun a b => b.pe ≤ a.pe := ⟨fun _ _ _ h1 h2 => le_trans h2 h1⟩

/-- C7 (amended): the "previous" quarterly value is the most recent non-null fact
strictly before the REBALANCE DATE, so whenever the current fact is dated strictly
before the rebalance date, previous and current read the same fact. -/
theorem previous_quarter_rebalance_date (facts : List FactRow) (asOf : ℤ) (cur : FactRow)
    (hcur : Fundamental.latestFact facts asOf = some cur) (hlt : cur.pe < asOf) :
    Fundamental.get_previous_quarter_value facts asOf =
      Fundamental.get_quarter_value facts asOf := by
  have hmax : ∀ r ∈ facts.filter fun x => decide (x.pe ≤ asOf) && x.val.isSome,
      r.pe ≤ cur.pe := by
    intro r hr
    have hperm : ((facts.filter fun x => decide (x.pe ≤ asOf) && x.val.isSome).insertionSort
        fun a b => b.pe ≤ a.pe).Perm
        (facts.filter fun x => decide (x.pe ≤ asOf) && x.val.isSome) :=
      List.perm_insertionSort _ _
    have hr' : r ∈ (facts.filter fun x => decide (x.pe ≤ asOf) && x.val.isSome).insertionSort
        fun a b => b.pe ≤ a.pe := hperm.mem_iff.mpr hr
    have hsorted : List.Sorted (fun a b : FactRow => b.pe ≤ a.pe)
        ((facts.filter fun x => decide (x.pe ≤ asOf) && x.val.isSome).insertionSort
          fun a b => b.pe ≤ a.pe) := List.sorted_insertionSort _ _
    unfold Fundamental.latestFact at hcur
    cases hsl : (facts.filter fun x => decide (x.pe ≤ asOf) && x.val.isSome).insertionSort
        fun a b => b.pe ≤ a.pe with
    | nil => rw [hsl] at hr'; exact absurd hr' (List.not_mem_nil r)
    | cons a t =>
      rw [hsl] at hcur hr' hsorted
      have ha : a = cur := by
        have := hcur
        simp only [List.head?_cons, Option.some.injEq] at this
        exact this
      rcases List.mem_cons.mp hr' with h | h
      · rw [h, ha]
      · exact ha ▸ (List.sorted_cons.mp hsorted).1 r h
  have hfilters : (facts.filter fun r => decide (r.pe < asOf) && r.val.isSome) =
      (facts.filter fun r => decide (r.pe ≤ asOf) && r.val.isSome) := by
    apply List.filter_congr
    intro r hr
    by_cases hs : r.val.isSome
    · by_cases hle : r.pe ≤ asOf
      · have hin : r ∈ facts.filter fun x => decide (x.pe ≤ asOf) && x.val.isSome :=
          List.mem_filter.mpr ⟨hr, by simp [hle, hs]⟩
        have : r.pe < asOf := lt_of_le_of_lt (hmax r hin) hlt
        simp [hs, hle, this]
      · have : ¬ r.pe < asOf := fun hx => hle (le_of_lt hx)
        simp [hs, hle, this]
    · simp [hs]
  unfold Fundamental.get_previous_quarter_value Fundamental.get_quarter_value
    Fundamental.latestFact
  rw [hfilters]

/-- C7 witness: the instance of the amended statement at the counterexample's store —
the current fact (period 20) is dated before the rebalance date 30, and previous
equals current. -/
theorem previous_quarter_rebalance_date_witness :
    Fundamental.latestFact [⟨10, some 1⟩, ⟨20, some 5⟩] 30 = some ⟨20, some 5⟩ ∧
    ((⟨20, some 5⟩ : FactRow).pe < 30 ∧
    Fundamental.get_previous_quarter_value [⟨10, some 1⟩, ⟨20, some 5⟩] 30 =
      Fundamental.get_quarter_value [⟨10, some 1⟩, ⟨20, some 5⟩] 30) :=
  ⟨by with_unfolding_all decide, by decide,
   previous_quarter_rebalance_date [⟨10, some 1⟩, ⟨20, some 5⟩] 30 ⟨20, some 5⟩
     (by with_unfolding_all decide) (by decide)⟩

set_option maxRecDepth 8000 in
/-- C2: counterexample — on a contiguous 63-session history ending at as_of_date 100,
the 63-day lookback returns the 50th session from the START of the window (date 87),
not the 63rd from the end (date 38), so the lookback price is not the N-th-from-end
session. -/
theorem momentum_lookback_counterexample :
    Momentum.get_price_n_days_before Momentum.demoShort 100 63 = some 87 ∧
    Momentum.claimNthFromEnd Momentum.demoShort 100 63 = some 38 ∧
    (87 : ℚ) ≠ 38 := by
  refine ⟨?_, ?_, ?_⟩ <;> with_unfolding_all decide

/-- C2 (amended): when the window holds at least the minimum number of sessions
(50/100/200 for the 63/126/252-day lookbacks), the price used is the minimum-th priced
session counted from the START of the ascending window — equivalently, for a window of
L sessions, the (L - minimum + 1)-th from the end — not the N-th from the end. -/
theorem momentum_lookback_from_start (prices : List PriceRow) (asOf : ℤ) (n : ℕ)
    (h1 : 1 ≤ Momentum.fallbackThreshold n)
    (h2 : Momentum.fallbackThreshold n ≤ (Momentum.sessionWindow prices asOf n).length) :
    Momentum.get_price_n_days_before prices asOf n =
      ((Momentum.sessionWindow prices asOf n)[Momentum.fallbackThreshold n - 1]?).bind
        (·.close) ∧
    (Momentum.sessionWindow prices asOf n)[Momentum.fallbackThreshold n - 1]? =
      (Momentum.sessionWindow prices asOf n).reverse[(Momentum.sessionWindow prices asOf
        n).length - Momentum.fallbackThreshold n]? := by
  constructor
  · unfold Momentum.get_price_n_days_before
    rw [if_neg (by omega)]
  · rw [List.getElem?_reverse (by omega)]
    congr 1
    omega

set_option maxRecDepth 100000 in
/-- C2 witness: the amended statement at the claim's own scenario — a contiguous
300-session history ending at as_of_date 1000; the 252-day lookback uses the 200th
session from the start (date 900), which is the 101st from the end, not the 252nd. -/
theorem momentum_lookback_from_start_witness :
    1 ≤ Momentum.fallbackThreshold 252 ∧
    Momentum.fallbackThreshold 252 ≤ (Momentum.sessionWindow Momentum.demoLong 1000 252).length ∧
    (Momentum.get_price_n_days_before Momentum.demoLong 1000 252 =
      ((Momentum.sessionWindow Momentum.demoLong 1000 252)[Momentum.fallbackThreshold 252 - 1]?).bind
        (·.close) ∧
    (Momentum.sessionWindow Momentum.demoLong 1000 252)[Momentum.fallbackThreshold 252 - 1]? =
      (Momentum.sessionWindow Momentum.demoLong 1000 252).reverse[(Momentum.sessionWindow
        Momentum.demoLong 1000 252).length - Momentum.fallbackThreshold 252]?) :=
  ⟨by with_unfolding_all decide, by with_unfolding_all decide,
   momentum_lookback_from_start Momentum.demoLong 1000 252
     (by with_unfolding_all decide) (by with_unfolding_all decide)⟩

/-- C3: counterexample — at as_of_date 100 the backtest's entry price is the FIRST
priced session on or after it (date 101, price 20), not the last on or before (date 99,
price 10); the 30-day forward return computed is 1, where the claim's entry would
give 3. -/
theorem backtest_entry_counterexample :
    Backtest.get_price Backtest.demoPrices1 "A" 100 = some 20 ∧
    Backtest.claimEntryPrice Backtest.demoPrices1 "A" 100 = some 10 ∧
    Backtest.actualReturns Backtest.demoPrices1 ["A"] 100 130 = [("A", 1)] ∧
    ((40 : ℚ) - 10) / 10 ≠ 1 := by
  refine ⟨?_, ?_, ?_, ?_⟩ <;> with_unfolding_all decide

instance : IsTotal Backtest.BPriceRow fun a b => a.d ≤ b.d := ⟨fun a b => le_total a.d b.d⟩

instance : IsTrans Backtest.BPriceRow fun a b => a.d ≤ b.d := ⟨fun _ _ _ => le_trans⟩

/-- C3 (amended): the entry price used for the forward return is the FIRST priced
session on or after as_of_date (the same query used for the exit at as_of_date + h),
and a return `(exit - entry)/entry` is retained exactly when both prices exist and
both are nonzero. -/
theorem backtest_entry_amended (prices : List Backtest.BPriceRow) (dt asOf endD : ℤ)
    (tickers : List String) :
    (∀ (t : String) (row : Backtest.BPriceRow), row ∈ prices → row.ticker = t →
      dt ≤ row.d → (∀ r ∈ prices, r.ticker = t → dt ≤ r.d → row.d ≤ r.d) →
      (∀ r ∈ prices, r.ticker = t → r.d = row.d → r = row) →
      Backtest.get_price prices t dt = row.close) ∧
    (∀ (t : String) (ret : ℚ),
      (t, ret) ∈ Backtest.actualReturns prices tickers asOf endD ↔
      (t ∈ tickers ∧ ∃ ps px, Backtest.get_price prices t asOf = some ps ∧
        Backtest.get_price prices t endD = some px ∧ ps ≠ 0 ∧ px ≠ 0 ∧
        ret = (px - ps) / ps)) := by
  constructor
  · intro t row hmem ht hge hmin huni
    set l := prices.filter (fun r => r.ticker == t && decide (dt ≤ r.d)) with hl
    have hrowf : row ∈ l := List.mem_filter.mpr ⟨hmem, by simp [ht, hge]⟩
    have hperm := List.perm_insertionSort (fun a b : Backtest.BPriceRow => a.d ≤ b.d) l
    have hsorted := List.sorted_insertionSort (fun a b : Backtest.BPriceRow => a.d ≤ b.d) l
    cases hsl : l.insertionSort (fun a b : Backtest.BPriceRow => a.d ≤ b.d) with
    | nil =>
      rw [hsl] at hperm
      exact absurd (hperm.symm.mem_iff.mp hrowf) (List.not_mem_nil row)
    | cons a tail =>
      have haL : a ∈ l := hperm.mem_iff.mp (by rw [hsl]; exact List.mem_cons_self a tail)
      have hprops := List.mem_filter.mp haL
      have hat : a.ticker = t ∧ dt ≤ a.d := by simpa using hprops.2
      have hra : row.d ≤ a.d := hmin a hprops.1 hat.1 hat.2
      have hrow' : row ∈ a :: tail := by
        rw [← hsl]; exact hperm.symm.mem_iff.mp hrowf
      have har : a.d ≤ row.d := by
        rcases List.mem_cons.mp hrow' with h | h
        · rw [h]
        · exact (List.sorted_cons.mp (hsl ▸ hsorted)).1 row h
      have haeq : a = row := huni a hprops.1 hat.1 (le_antisymm har hra)
      unfold Backtest.get_price
      rw [← hl, hsl]
      simp [haeq]
  · intro t ret
    unfold Backtest.actualReturns
    rw [List.mem_filterMap]
    constructor
    · rintro ⟨t', ht', hf⟩
      rcases hps : Backtest.get_price prices t' asOf with _ | ps
      · rw [hps] at hf
        exact absurd hf (by rcases Backtest.get_price prices t' endD with _ | px <;> simp)
      · rcases hpx : Backtest.get_price prices t' endD with _ | px
        · rw [hps, hpx] at hf
          exact Option.noConfusion hf
        · rw [hps, hpx] at hf
          by_cases hz : ps ≠ 0 ∧ px ≠ 0
          · have hf' : some (t', (px - ps) / ps) = some (t, ret) := by
              rw [← hf]
              show _ = (if ps ≠ 0 ∧ px ≠ 0 then some (t', (px - ps) / ps) else none)
              rw [if_pos hz]
            rw [Option.some.injEq, Prod.mk.injEq] at hf'
            obtain ⟨rfl, rfl⟩ := hf'
            exact ⟨ht', ps, px, hps, hpx, hz.1, hz.2, rfl⟩
          · have hf' : (none : Option (String × ℚ)) = some (t, ret) := by
              rw [← hf]
              show _ = (if ps ≠ 0 ∧ px ≠ 0 then some (t', (px - ps) / ps) else none)
              rw [if_neg hz]
            exact Option.noConfusion hf'
    · rintro ⟨htk, ps, px, hps, hpx, hz1, hz2, hret⟩
      refine ⟨t, htk, ?_⟩
      rw [hps, hpx]
      show (if ps ≠ 0 ∧ px ≠ 0 then some (t, (px - ps) / ps) else none) = some (t, ret)
      rw [if_pos (And.intro hz1 hz2), hret]

/-- C3 witness: the amended statement at the counterexample store — the session at
date 101 is the first on or after 100, so the entry price is 20, and the retained
30-day return for A is (40 - 20)/20 = 1. -/
theorem backtest_entry_amended_witness :
    Backtest.get_price Backtest.demoPrices1 "A" 100 =
      (⟨"A", 101, some 20⟩ : Backtest.BPriceRow).close ∧
    ("A", (1 : ℚ)) ∈ Backtest.actualReturns Backtest.demoPrices1 ["A"] 100 130 :=
  ⟨(backtest_entry_amended Backtest.demoPrices1 100 100 130 ["A"]).1 "A" ⟨"A", 101, some 20⟩
     (by with_unfolding_all decide) rfl (by decide)
     (by with_unfolding_all decide) (by with_unfolding_all decide),
   ((backtest_entry_amended Backtest.demoPrices1 100 100 130 ["A"]).2 "A" 1).mpr
     ⟨by decide, 20, 40, by with_unfolding_all decide, by with_unfolding_all decide,
      by norm_num, by norm_num, by norm_num⟩⟩

set_option maxRecDepth 40000 in
/-- C4: counterexample — a snapshot dated 100 days BEFORE the fiscal year's period
ending sets target_pe (10 / 2 = 5), even though no snapshot at all lies in the claim's
window from period_ending to one year after; snapshots before period_ending ARE used. -/
theorem target_pe_window_counterexample :
    TargetPE.runTargetPE TargetPE.demoDerived TargetPE.demoSnaps =
      [⟨"A", 2020, 1000, some 5⟩] ∧
    TargetPE.demoSnaps.filter
      (fun v => decide (1000 ≤ v.asOf) && decide (v.asOf ≤ 1000 + 365)) = [] := by
  constructor <;> with_unfolding_all decide

/-- The last element of a nonempty list, cons form. -/
theorem lastOfCons {α : Type} (a : α) (l : List α) :
    (a :: l).getLast? = some (l.getLast?.getD a) := by
  induction l generalizing a with
  | nil => rfl
  | cons b l ih =>
    rw [List.getLast?_cons_cons, ih b]
    simp

/-- Membership of the last element. -/
theorem memOfLastEq {α : Type} {l : List α} {a : α} (h : l.getLast? = some a) : a ∈ l := by
  obtain ⟨hne, heq⟩ := List.mem_getLast?_eq_getLast (Option.mem_def.mpr h)
  rw [heq]
  exact List.getLast_mem hne

/-- getLast? commutes with a filterMap that is defined on every member. -/
theorem lastOfFilterMap {α β : Type} (f : α → Option β) :
    ∀ l : List α, (∀ x ∈ l, (f x).isSome) →
      (l.filterMap f).getLast? = l.getLast?.bind f := by
  intro l
  induction l with
  | nil => intro _; rfl
  | cons a l ih =>
    intro h
    obtain ⟨b, hb⟩ := Option.isSome_iff_exists.mp (h a (List.mem_cons_self a l))
    cases l with
    | nil => simp [List.filterMap, hb]
    | cons c l' =>
      have hmem : ∀ x ∈ c :: l', (f x).isSome := fun x hx =>
        h x (List.mem_cons_of_mem a hx)
      obtain ⟨b', hb'⟩ := Option.isSome_iff_exists.mp (hmem c (List.mem_cons_self c l'))
      rw [List.filterMap_cons_some hb, List.getLast?_cons_cons, ← ih hmem,
        List.filterMap_cons_some hb', List.getLast?_cons_cons]

/-- One step of the target-PE update loop. -/
theorem updLoop_cons (u : ℚ × String × ℤ) (us : List (ℚ × String × ℤ))
    (d : TargetPE.DRow) :
    TargetPE.updLoop (u :: us) d = TargetPE.updLoop us
      (if d.ticker == u.2.1 && d.fiscalYear == u.2.2 then { d with targetPe := some u.1 }
       else d) := rfl

/-- The batch update is the row-wise update loop applied to every derived row. -/
theorem applyUpdates_eq_map (us : List (ℚ × String × ℤ)) :
    ∀ derived, TargetPE.applyUpdates derived us = derived.map (TargetPE.updLoop us) := by
  induction us with
  | nil =>
    intro derived
    have h1 : derived.map (TargetPE.updLoop []) = derived.map id :=
      List.map_congr_left fun d _ => rfl
    rw [h1, List.map_id]
    rfl
  | cons u us ih =>
    intro derived
    unfold TargetPE.applyUpdates
    rw [List.foldl_cons]
    have step := ih (derived.map fun r =>
      if r.ticker == u.2.1 && r.fiscalYear == u.2.2 then { r with targetPe := some u.1 }
      else r)
    unfold TargetPE.applyUpdates at step
    rw [step, List.map_map]
    exact List.map_congr_left fun d _ => rfl

/-- The update loop sets a row's target P/E to the value of the LAST update whose key
matches, leaving it unchanged when none matches. -/
theorem updLoop_eq_last :
    ∀ (us : List (ℚ × String × ℤ)) (d : TargetPE.DRow) (tk : String) (fy : ℤ),
      d.ticker = tk → d.fiscalYear = fy →
      TargetPE.updLoop us d =
        match (us.filter fun u => tk == u.2.1 && fy == u.2.2).getLast? with
        | some u => { d with targetPe := some u.1 }
        | none => d := by
  intro us
  induction us with
  | nil => intro d tk fy _ _; rfl
  | cons u us ih =>
    intro d tk fy htk hfy
    rw [updLoop_cons]
    by_cases hc : (tk == u.2.1 && fy == u.2.2) = true
    · have hc' : (d.ticker == u.2.1 && d.fiscalYear == u.2.2) = true := by
        rw [htk, hfy]; exact hc
      have hcu : (fun v : ℚ × String × ℤ => tk == v.2.1 && fy == v.2.2) u = true := hc
      have hfe : List.filter (fun v : ℚ × String × ℤ => tk == v.2.1 && fy == v.2.2) (u :: us)
          = u :: List.filter (fun v : ℚ × String × ℤ => tk == v.2.1 && fy == v.2.2) us :=
        List.filter_cons_of_pos hcu
      rw [if_pos hc', hfe, lastOfCons, ih { d with targetPe := some u.1 } tk fy htk hfy]
      cases hl : (us.filter fun v : ℚ × String × ℤ => tk == v.2.1 && fy == v.2.2).getLast? with
      | none => simp [hl]
      | some w => simp [hl]
    · have hc' : ¬ (d.ticker == u.2.1 && d.fiscalYear == u.2.2) = true := by
        rw [htk, hfy]; exact hc
      have hcu : ¬ (fun v : ℚ × String × ℤ => tk == v.2.1 && fy == v.2.2) u = true := hc
      have hfe : List.filter (fun v : ℚ × String × ℤ => tk == v.2.1 && fy == v.2.2) (u :: us)
          = List.filter (fun v : ℚ × String × ℤ => tk == v.2.1 && fy == v.2.2) us :=
        List.filter_cons_of_neg hcu
      rw [if_neg hc', hfe]
      exact ih d tk fy htk hfy

/-- A qualifying snapshot always yields an update value (its price and EPS are some). -/
theorem qualifies_updVal (d : TargetPE.DRow) (v : TargetPE.SnapRow)
    (h : TargetPE.qualifies d v = true) : (TargetPE.updVal v).isSome := by
  unfold TargetPE.qualifies at h
  unfold TargetPE.updVal
  rcases hp : v.price with _ | p <;> rcases he : v.ttmEps with _ | e <;> simp_all

/-- Every update produced from the block of one derived row carries that row's key. -/
theorem computeUpdates_block_key (snaps : List TargetPE.SnapRow) (d0 : TargetPE.DRow) :
    ∀ u ∈ TargetPE.computeUpdates ((snaps.filter (TargetPE.qualifies d0)).map
      fun v => (d0, v)),
      u.2.1 = d0.ticker ∧ u.2.2 = d0.fiscalYear := by
  intro u hu
  unfold TargetPE.computeUpdates at hu
  rw [List.mem_filterMap] at hu
  obtain ⟨p, hp, hpu⟩ := hu
  rw [List.mem_map] at hp
  obtain ⟨v, _, hveq⟩ := hp
  rcases hq : TargetPE.updVal p.2 with _ | q
  · rw [hq] at hpu
    exact Option.noConfusion hpu
  · rw [hq] at hpu
    have hu2 : (q, p.1.ticker, p.1.fiscalYear) = u := Option.some.inj hpu
    rw [← hu2, ← hveq]
    exact ⟨rfl, rfl⟩

/-- Every update produced by the fetch carries the key of some derived row. -/
theorem computeUpdates_fetch_key (snaps : List TargetPE.SnapRow)
    (derived : List TargetPE.DRow) :
    ∀ u ∈ TargetPE.computeUpdates (TargetPE.fetch_required_records derived snaps),
      ∃ d' ∈ derived, u.2.1 = d'.ticker ∧ u.2.2 = d'.fiscalYear := by
  intro u hu
  unfold TargetPE.computeUpdates TargetPE.fetch_required_records at hu
  rw [List.mem_filterMap] at hu
  obtain ⟨p, hp, hpu⟩ := hu
  rw [List.mem_flatMap] at hp
  obtain ⟨d', hd', hp2⟩ := hp
  rw [List.mem_map] at hp2
  obtain ⟨v, _, hveq⟩ := hp2
  refine ⟨d', hd', ?_⟩
  rcases hq : TargetPE.updVal p.2 with _ | q
  · rw [hq] at hpu
    exact Option.noConfusion hpu
  · rw [hq] at hpu
    have hu2 : (q, p.1.ticker, p.1.fiscalYear) = u := Option.some.inj hpu
    rw [← hu2, ← hveq]
    exact ⟨rfl, rfl⟩

/-- With unique (ticker, fiscal_year) keys, the updates matching one derived row's key
are exactly the updates its own join block produced. -/
theorem filter_computeUpdates_fetch (snaps : List TargetPE.SnapRow) :
    ∀ (derived : List TargetPE.DRow) (d : TargetPE.DRow), d ∈ derived →
      (derived.map fun r => (r.ticker, r.fiscalYear)).Nodup →
      ((TargetPE.computeUpdates (TargetPE.fetch_required_records derived snaps)).filter
        fun u => d.ticker == u.2.1 && d.fiscalYear == u.2.2) =
        TargetPE.computeUpdates ((snaps.filter (TargetPE.qualifies d)).map
          fun v => (d, v)) := by
  intro derived
  induction derived with
  | nil => intro d hd _; exact absurd hd (List.not_mem_nil d)
  | cons d0 rest ih =>
    intro d hd hnd
    have hsplit : TargetPE.fetch_required_records (d0 :: rest) snaps =
        ((snaps.filter (TargetPE.qualifies d0)).map fun v => (d0, v)) ++
        TargetPE.fetch_required_records rest snaps := List.flatMap_cons _ _ _
    rw [hsplit]
    have happend : TargetPE.computeUpdates (((snaps.filter (TargetPE.qualifies d0)).map
        fun v => (d0, v)) ++ TargetPE.fetch_required_records rest snaps) =
        TargetPE.computeUpdates ((snaps.filter (TargetPE.qualifies d0)).map
          fun v => (d0, v)) ++
        TargetPE.computeUpdates (TargetPE.fetch_required_records rest snaps) := by
      unfold TargetPE.computeUpdates
      exact List.filterMap_append ..
    rw [happend, List.filter_append]
    rcases List.mem_cons.mp hd with heq | hmem
    · subst heq
      have hfirst : ((TargetPE.computeUpdates ((snaps.filter (TargetPE.qualifies d)).map
          fun v => (d, v))).filter fun u => d.ticker == u.2.1 && d.fiscalYear == u.2.2) =
          TargetPE.computeUpdates ((snaps.filter (TargetPE.qualifies d)).map
            fun v => (d, v)) := by
        apply List.filter_eq_self.mpr
        intro u hu
        obtain ⟨h1, h2⟩ := computeUpdates_block_key snaps d u hu
        simp [h1, h2]
      have hrest : ((TargetPE.computeUpdates (TargetPE.fetch_required_records rest
          snaps)).filter fun u => d.ticker == u.2.1 && d.fiscalYear == u.2.2) = [] := by
        apply List.filter_eq_nil_iff.mpr
        intro u hu hcontra
        obtain ⟨d', hd', h1, h2⟩ := computeUpdates_fetch_key snaps rest u hu
        have hkeys : (d.ticker, d.fiscalYear) ∉ rest.map fun r => (r.ticker, r.fiscalYear) :=
          (List.nodup_cons.mp hnd).1
        have hts : d.ticker = u.2.1 ∧ d.fiscalYear = u.2.2 := by simpa using hcontra
        refine hkeys (List.mem_map.mpr ⟨d', hd', ?_⟩)
        rw [← h1, ← h2, ← hts.1, ← hts.2]
      rw [hfirst, hrest, List.append_nil]
    · have hd0 : (d0.ticker, d0.fiscalYear) ∉ rest.map fun r => (r.ticker, r.fiscalYear) :=
        (List.nodup_cons.mp hnd).1
      have hne : ¬ (d.ticker = d0.ticker ∧ d.fiscalYear = d0.fiscalYear) := by
        rintro ⟨e1, e2⟩
        exact hd0 (List.mem_map.mpr ⟨d, hmem, by rw [e1, e2]⟩)
      have hfirst : ((TargetPE.computeUpdates ((snaps.filter (TargetPE.qualifies d0)).map
          fun v => (d0, v))).filter fun u => d.ticker == u.2.1 && d.fiscalYear == u.2.2)
          = [] := by
        apply List.filter_eq_nil_iff.mpr
        intro u hu hcontra
        obtain ⟨h1, h2⟩ := computeUpdates_block_key snaps d0 u hu
        have hts : d.ticker = u.2.1 ∧ d.fiscalYear = u.2.2 := by simpa using hcontra
        exact hne ⟨hts.1.trans h1, hts.2.trans h2⟩
      rw [hfirst, List.nil_append]
      exact ih d hmem (List.nodup_cons.mp hnd).2

/-- C4 (amended): with unique (ticker, fiscal_year) keys, every derived row whose
target_pe is null receives `round(price/ttm_eps, 2)` of the LAST snapshot in table
order with the same ticker, positive price and EPS, and as_of_date ON OR BEFORE the
fiscal year's period_ending (no one-year window, no earliest-wins); rows with no such
snapshot, or with target_pe already set, are unchanged. -/
theorem target_pe_last_qualifying (derived : List TargetPE.DRow)
    (snaps : List TargetPE.SnapRow)
    (hnd : (derived.map fun r => (r.ticker, r.fiscalYear)).Nodup) :
    TargetPE.runTargetPE derived snaps = derived.map fun r =>
      match TargetPE.lastQualifying snaps r with
      | some q => { r with targetPe := some q }
      | none => r := by
  unfold TargetPE.runTargetPE
  rw [applyUpdates_eq_map]
  apply List.map_congr_left
  intro d hd
  rw [updLoop_eq_last _ d d.ticker d.fiscalYear rfl rfl,
    filter_computeUpdates_fetch snaps derived d hd hnd]
  have hsome : ∀ p ∈ (snaps.filter (TargetPE.qualifies d)).map
      (fun v => ((d, v) : TargetPE.DRow × TargetPE.SnapRow)),
      ((fun p : TargetPE.DRow × TargetPE.SnapRow =>
        match TargetPE.updVal p.2 with
        | some q => some (q, p.1.ticker, p.1.fiscalYear)
        | none => none) p).isSome := by
    intro p hp
    rw [List.mem_map] at hp
    obtain ⟨v, hv, hveq⟩ := hp
    have hq := qualifies_updVal d v (List.mem_filter.mp hv).2
    obtain ⟨q, hq'⟩ := Option.isSome_iff_exists.mp hq
    rw [← hveq]
    simp [hq']
  have hlast := lastOfFilterMap _ ((snaps.filter (TargetPE.qualifies d)).map
    fun v => ((d, v) : TargetPE.DRow × TargetPE.SnapRow)) hsome
  unfold TargetPE.computeUpdates
  rw [hlast, List.getLast?_map]
  cases hL : (snaps.filter (TargetPE.qualifies d)).getLast? with
  | none => simp [TargetPE.lastQualifying, hL]
  | some vL =>
    have hvq : TargetPE.qualifies d vL = true :=
      (List.mem_filter.mp (memOfLastEq hL)).2
    obtain ⟨q0, hq0⟩ := Option.isSome_iff_exists.mp (qualifies_updVal d vL hvq)
    simp [TargetPE.lastQualifying, hL, hq0]

set_option maxRecDepth 40000 in
/-- C4 witness: the amended statement instantiated at the counterexample tables (one
derived row, one earlier-dated snapshot). -/
theorem target_pe_last_qualifying_witness :
    (TargetPE.demoDerived.map fun r => (r.ticker, r.fiscalYear)).Nodup ∧
    TargetPE.runTargetPE TargetPE.demoDerived TargetPE.demoSnaps =
      TargetPE.demoDerived.map fun r =>
        match TargetPE.lastQualifying TargetPE.demoSnaps r with
        | some q => { r with targetPe := some q }
        | none => r :=
  ⟨by with_unfolding_all decide,
   target_pe_last_qualifying TargetPE.demoDerived TargetPE.demoSnaps
     (by with_unfolding_all decide)⟩

/-- C8: counterexample — with fiscal years 2016, 2018, 2020 and positive EPS 1, 2, 4,
the calculator pairs years POSITIONALLY: the only value computed is for 2020, paired
with 2016 (quotient 4), and fiscal year 2018 — although eps[2018] and eps[2016] are
both present and strictly positive — receives no 2-year CAGR at all. -/
theorem eps_cagr_positional_counterexample :
    EpsCagr.epsCagrTargets [(2016, 1), (2018, 2), (2020, 4)] = [(2020, 4)] ∧
    2018 ∉ (EpsCagr.epsCagrTargets [(2016, 1), (2018, 2), (2020, 4)]).map Prod.fst := by
  constructor
  · with_unfolding_all decide
  · with_unfolding_all decide

/-- C8 (amended): pairing is positional, not by fiscal-year value: for every POSITION
i >= 2 in the ascending list of available fiscal years, the year at position i is
paired with the year at position i - 2 (however many calendar years apart), and when
both EPS values are strictly positive the written value is sqrt(eps_i / eps_{i-2}) - 1,
the exponent staying 1/2 regardless of the actual gap. -/
theorem eps_cagr_positional_pairs (data : List (ℕ × ℚ)) (i : ℕ)
    (h2 : 2 ≤ i) (hlen : i < (EpsCagr.sortedYears data).length) (e e2 : ℚ)
    (he : EpsCagr.epsOf data ((EpsCagr.sortedYears data).getD i 0) = some e)
    (he2 : EpsCagr.epsOf data ((EpsCagr.sortedYears data).getD (i - 2) 0) = some e2)
    (hpos : 0 < e) (hpos2 : 0 < e2) :
    ((EpsCagr.sortedYears data).getD i 0, e / e2) ∈ EpsCagr.epsCagrTargets data ∧
    ((EpsCagr.sortedYears data).getD i 0, EpsCagr.cagrVal (e / e2)) ∈
      EpsCagr.epsCagrUpdates data := by
  have hmem : ((EpsCagr.sortedYears data).getD i 0, e / e2) ∈
      EpsCagr.epsCagrTargets data := by
    unfold EpsCagr.epsCagrTargets
    rw [List.mem_filterMap]
    refine ⟨i, List.mem_range.mpr hlen, ?_⟩
    rw [if_neg (by omega), he, he2]
    show (if e ≤ 0 ∨ e2 ≤ 0 then none
      else some ((EpsCagr.sortedYears data).getD i 0, e / e2)) = _
    rw [if_neg (by push_neg; exact ⟨hpos, hpos2⟩)]
  refine ⟨hmem, ?_⟩
  unfold EpsCagr.epsCagrUpdates
  exact List.mem_map.mpr ⟨_, hmem, rfl⟩

/-- C8 witness: consecutive fiscal years 2015, 2016, 2017 with EPS 1, 2, 4 — position
2 is year 2017, paired with 2015; the written value is sqrt(4/1) - 1 = 1, matching the
spec's worked example. -/
theorem eps_cagr_positional_pairs_witness :
    (2 ≤ 2 ∧ 2 < (EpsCagr.sortedYears [(2015, 1), (2016, 2), (2017, 4)]).length ∧
     EpsCagr.epsOf [(2015, 1), (2016, 2), (2017, 4)]
       ((EpsCagr.sortedYears [(2015, 1), (2016, 2), (2017, 4)]).getD 2 0) = some 4 ∧
     EpsCagr.epsOf [(2015, 1), (2016, 2), (2017, 4)]
       ((EpsCagr.sortedYears [(2015, 1), (2016, 2), (2017, 4)]).getD (2 - 2) 0) = some 1) ∧
    (((EpsCagr.sortedYears [(2015, 1), (2016, 2), (2017, 4)]).getD 2 0, (4 : ℚ) / 1) ∈
      EpsCagr.epsCagrTargets [(2015, 1), (2016, 2), (2017, 4)] ∧
     ((EpsCagr.sortedYears [(2015, 1), (2016, 2), (2017, 4)]).getD 2 0,
       EpsCagr.cagrVal ((4 : ℚ) / 1)) ∈
      EpsCagr.epsCagrUpdates [(2015, 1), (2016, 2), (2017, 4)]) ∧
    EpsCagr.cagrVal ((4 : ℚ) / 1) = 1 :=
  ⟨⟨by decide, by with_unfolding_all decide, by with_unfolding_all decide,
    by with_unfolding_all decide⟩,
   eps_cagr_positional_pairs [(2015, 1), (2016, 2), (2017, 4)] 2 (by decide)
     (by with_unfolding_all decide) 4 1 (by with_unfolding_all decide)
     (by with_unfolding_all decide) (by norm_num) (by norm_num),
   by
     unfold EpsCagr.cagrVal
     have h4 : ((4 : ℚ) / 1 : ℚ) = 4 := by norm_num
     rw [h4]
     push_cast
     rw [show (4 : ℝ) = 2 ^ 2 by norm_num, Real.sqrt_sq (by norm_num : (0 : ℝ) ≤ 2)]
     norm_num⟩

/-- Every retained forward return belongs to one of the requested tickers. -/
theorem actualReturns_ticker (prices : List Backtest.BPriceRow) (tickers : List String)
    (a b : ℤ) :
    ∀ p ∈ Backtest.actualReturns prices tickers a b, p.1 ∈ tickers := by
  intro p hp
  unfold Backtest.actualReturns at hp
  rw [List.mem_filterMap] at hp
  obtain ⟨t, ht, hf⟩ := hp
  rcases h1 : Backtest.get_price prices t a with _ | ps
  · rw [h1] at hf
    exact absurd hf (by rcases Backtest.get_price prices t b with _ | px <;> simp)
  · rcases h2 : Backtest.get_price prices t b with _ | px
    · rw [h1, h2] at hf
      exact Option.noConfusion hf
    · rw [h1, h2] at hf
      by_cases hz : ps ≠ 0 ∧ px ≠ 0
      · have hf' : some (t, (px - ps) / ps) = some p := by
          rw [← hf]
          show _ = (if ps ≠ 0 ∧ px ≠ 0 then some (t, (px - ps) / ps) else none)
          rw [if_pos hz]
        have : (t, (px - ps) / ps) = p := Option.some.inj hf'
        rw [← this]
        exact ht
      · have hf' : (none : Option (String × ℚ)) = some p := by
          rw [← hf]
          show _ = (if ps ≠ 0 ∧ px ≠ 0 then some (t, (px - ps) / ps) else none)
          rw [if_neg hz]
        exact Option.noConfusion hf'

/-- Counting matched-top detail rows equals counting list members in the predicted
top-N, because the score-map lookup succeeds for every row from the cohort. -/
theorem countP_detail (entries : List (String × ℚ × ℕ)) (tp bp : List String) :
    ∀ l : List (ℕ × String × ℚ), (∀ p ∈ l, p.2.1 ∈ entries.map (·.1)) →
      ((l.filterMap (Backtest.detailRow entries tp bp)).filter (·.matchedTop)).length =
      l.countP fun p => tp.contains p.2.1 := by
  intro l
  induction l with
  | nil => intro _; rfl
  | cons p l ih =>
    intro hmem
    have hp : p.2.1 ∈ entries.map (·.1) := hmem p (List.mem_cons_self p l)
    obtain ⟨e, he, heq⟩ := List.mem_map.mp hp
    have hfind : ((entries.find? fun x => x.1 == p.2.1).isSome) :=
      List.find?_isSome.mpr ⟨e, he, by simp [heq]⟩
    obtain ⟨e0, hfe⟩ := Option.isSome_iff_exists.mp hfind
    have hrow : Backtest.detailRow entries tp bp p =
        some ⟨p.2.1, e0.2.1, e0.2.2, p.2.2, p.1 + 1, tp.contains p.2.1,
          bp.contains p.2.1⟩ := by
      unfold Backtest.detailRow
      rw [hfe]
    rw [List.filterMap_cons_some hrow]
    by_cases hc : tp.contains p.2.1 = true
    · have hc' : ((⟨p.2.1, e0.2.1, e0.2.2, p.2.2, p.1 + 1, tp.contains p.2.1,
          bp.contains p.2.1⟩ : Backtest.Detail).matchedTop) = true := hc
      rw [List.filter_cons_of_pos hc', List.length_cons, ih fun q hq =>
        hmem q (List.mem_cons_of_mem p hq), List.countP_cons]
      have hcm : p.2.1 ∈ tp := by simpa using hc
      simp [hcm]
    · have hc' : ¬ ((⟨p.2.1, e0.2.1, e0.2.2, p.2.2, p.1 + 1, tp.contains p.2.1,
          bp.contains p.2.1⟩ : Backtest.Detail).matchedTop) = true := hc
      rw [List.filter_cons_of_neg hc', ih fun q hq =>
        hmem q (List.mem_cons_of_mem p hq), List.countP_cons]
      have hcm : p.2.1 ∉ tp := by simpa using hc
      simp [hcm]

set_option maxRecDepth 100000 in
/-- C6: counterexample — four instruments all with valid 30-day returns, predicted
order A, B, C, D and realized order exactly reversed: the top-2 predicted set {A, B}
and the top-2 realized set {D, C} are disjoint, yet the reported top_n_overlap is 2.
The statistic counts valid-return instruments inside the top-N PREDICTED set, not the
intersection of the predicted and realized top-N sets. -/
theorem overlap_counterexample :
    (Backtest.runForDate Backtest.demoPrices4 Backtest.demoEntries 100 30 2).map
      (fun r => r.2.overlap) = some 2 ∧
    Backtest.claimOverlap Backtest.demoPrices4 Backtest.demoEntries 100 30 2 = 0 ∧
    (2 : ℕ) ≠ 0 := by
  refine ⟨?_, ?_, ?_⟩ <;> with_unfolding_all decide

/-- C6 (amended): whenever a (as_of_date, holding period) combination is not skipped,
the reported top_n_overlap equals the number of instruments WITH A VALID REALIZED
RETURN that lie in the top-N PREDICTED set (not the intersection of the predicted and
realized top-N sets); and any cohort with fewer than 2 x top_n instruments — in
particular the claim's two-instrument example with top_n = 2 — is skipped and produces
no summary at all. -/
theorem overlap_matched_top_count (prices : List Backtest.BPriceRow)
    (entries : List (String × ℚ × ℕ)) (asOf h : ℤ) (topN : ℕ)
    (detail : List Backtest.Detail) (s : Backtest.Summary)
    (hrun : Backtest.runForDate prices entries asOf h topN = some (detail, s)) :
    s.overlap = (((Backtest.actualReturns prices (entries.map (·.1)) asOf
      (asOf + h)).map (·.1)).filter fun t =>
        (Backtest.topPredicted entries topN).contains t).length ∧
    (∀ e2 : List (String × ℚ × ℕ), e2.length < 2 * topN →
      Backtest.runForDate prices e2 asOf h topN = none) := by
  constructor
  · unfold Backtest.runForDate at hrun
    by_cases hskip : (Backtest.actualReturns prices (entries.map fun x => x.1) asOf
        (asOf + h)).length < 2 * topN
    · rw [if_pos hskip] at hrun
      exact Option.noConfusion hrun
    · rw [if_neg hskip] at hrun
      rw [Option.some.injEq, Prod.mk.injEq] at hrun
      obtain ⟨hD, hS⟩ := hrun
      rw [← hS]
      show ((((Backtest.actualReturns prices (entries.map fun x => x.1) asOf
          (asOf + h)).insertionSort fun a b => b.2 ≤ a.2).enum.filterMap
          (Backtest.detailRow entries (Backtest.topPredicted entries topN)
            (Backtest.bottomPredicted entries topN))).filter (·.matchedTop)).length = _
      rw [countP_detail entries (Backtest.topPredicted entries topN)
        (Backtest.bottomPredicted entries topN) _ ?hmem]
      case hmem =>
        intro p hp
        have hsnd : p.2 ∈ (Backtest.actualReturns prices (entries.map fun x => x.1) asOf
            (asOf + h)).insertionSort fun a b => b.2 ≤ a.2 :=
          List.snd_mem_of_mem_enum (by exact hp)
        have hsnd2 : p.2 ∈ Backtest.actualReturns prices (entries.map fun x => x.1) asOf
            (asOf + h) :=
          (List.perm_insertionSort _ _).mem_iff.mp hsnd
        exact actualReturns_ticker prices _ asOf (asOf + h) p.2 hsnd2
      have hstep : ((((Backtest.actualReturns prices (entries.map fun x => x.1) asOf
          (asOf + h)).insertionSort fun a b => b.2 ≤ a.2).enum).countP
            fun p => (Backtest.topPredicted entries topN).contains p.2.1) =
          (((Backtest.actualReturns prices (entries.map fun x => x.1) asOf
            (asOf + h)).insertionSort fun a b => b.2 ≤ a.2).countP
              fun q => (Backtest.topPredicted entries topN).contains q.1) := by
        conv_rhs => rw [← List.enum_map_snd ((Backtest.actualReturns prices
          (entries.map fun x => x.1) asOf (asOf + h)).insertionSort
            fun a b => b.2 ≤ a.2)]
        rw [List.countP_map]
        rfl
      rw [hstep, (List.perm_insertionSort _ _).countP_eq,
        ← List.countP_eq_length_filter, List.countP_map]
      rfl
  · intro e2 hlen
    unfold Backtest.runForDate
    rw [if_pos ?hlt]
    case hlt =>
      calc (Backtest.actualReturns prices (e2.map fun x => x.1) asOf (asOf + h)).length
          ≤ (e2.map fun x => x.1).length := List.length_filterMap_le _ _
        _ = e2.length := List.length_map ..
        _ < 2 * topN := hlen

set_option maxRecDepth 100000 in
/-- C6 witness: the amended statement at the counterexample's four-instrument cohort —
the reported overlap 2 equals the count of valid-return tickers in the top-2 predicted
set, and a two-entry cohort is skipped for top_n = 2. -/
theorem overlap_matched_top_count_witness :
    Backtest.runForDate Backtest.demoPrices4 Backtest.demoEntries 100 30 2 =
      some ([⟨"D", 1, 4, 4, 1, false, true⟩, ⟨"C", 2, 3, 3, 2, false, true⟩,
             ⟨"B", 3, 2, 2, 3, true, false⟩, ⟨"A", 4, 1, 1, 4, true, false⟩],
            ⟨-1, 2, 4, some (3/2), some (7/2)⟩) ∧
    ((⟨-1, 2, 4, some (3/2), some (7/2)⟩ : Backtest.Summary).overlap =
      (((Backtest.actualReturns Backtest.demoPrices4 (Backtest.demoEntries.map (·.1)) 100
        (100 + 30)).map (·.1)).filter fun t =>
          (Backtest.topPredicted Backtest.demoEntries 2).contains t).length) ∧
    Backtest.runForDate Backtest.demoPrices4 [("A", 4, 1), ("B", 3, 2)] 100 30 2 = none :=
  ⟨by with_unfolding_all decide,
   (overlap_matched_top_count Backtest.demoPrices4 Backtest.demoEntries 100 30 2
     [⟨"D", 1, 4, 4, 1, false, true⟩, ⟨"C", 2, 3, 3, 2, false, true⟩,
      ⟨"B", 3, 2, 2, 3, true, false⟩, ⟨"A", 4, 1, 1, 4, true, false⟩]
     ⟨-1, 2, 4, some (3/2), some (7/2)⟩ (by with_unfolding_all decide)).1,
   (overlap_matched_top_count Backtest.demoPrices4 Backtest.demoEntries 100 30 2
     [⟨"D", 1, 4, 4, 1, false, true⟩, ⟨"C", 2, 3, 3, 2, false, true⟩,
      ⟨"B", 3, 2, 2, 3, true, false⟩, ⟨"A", 4, 1, 1, 4, true, false⟩]
     ⟨-1, 2, 4, some (3/2), some (7/2)⟩ (by with_unfolding_all decide)).2
     [("A", 4, 1), ("B", 3, 2)] (by decide)⟩

/-- Filtering by a predicate that entails date <= D gives the same result on two lists
that agree on their rows dated on or before D. -/
theorem filter_sub_agree {α : Type} (dt : α → ℤ) (p : α → Bool) (D : ℤ)
    (hp : ∀ x, p x = true → dt x ≤ D) (l₁ l₂ : List α)
    (h : l₁.filter (fun r => decide (dt r ≤ D)) = l₂.filter (fun r => decide (dt r ≤ D))) :
    l₁.filter p = l₂.filter p := by
  have key : ∀ l : List α, l.filter p = (l.filter fun r => decide (dt r ≤ D)).filter p := by
    intro l
    rw [List.filter_filter]
    apply List.filter_congr
    intro a _
    cases hpa : p a with
    | false => simp [hpa]
    | true => simp [hpa, hp a hpa]
  rw [key l₁, key l₂, h]

/-- The TTM estimator reads only facts with period_ending on or before the date. -/
theorem ttm_agree (l₁ l₂ : List FactRow) (D : ℤ) (h : factsUpTo l₁ D = factsUpTo l₂ D) :
    Valuation.get_strict_ttm_eps l₁ D = Valuation.get_strict_ttm_eps l₂ D := by
  unfold factsUpTo at h
  unfold Valuation.get_strict_ttm_eps
  rw [filter_sub_agree (fun r : FactRow => r.pe)
    (fun r => decide (r.pe ≤ D) && r.val.isSome) D
    (fun x hx => by simp at hx; exact hx.1) l₁ l₂ h]

/-- The snapshot entry price reads only prices dated on or before the date. -/
theorem entry_price_agree (l₁ l₂ : List PriceRow) (D : ℤ)
    (h : pricesUpTo l₁ D = pricesUpTo l₂ D) :
    Valuation.get_entry_price l₁ D = Valuation.get_entry_price l₂ D := by
  unfold pricesUpTo at h
  unfold Valuation.get_entry_price
  rw [filter_sub_agree (fun r : PriceRow => r.d) (fun r => decide (r.d ≤ D)) D
    (fun x hx => by simpa using hx) l₁ l₂ h]

/-- The momentum current price reads only prices dated on or before the date. -/
theorem on_or_before_agree (l₁ l₂ : List PriceRow) (D : ℤ)
    (h : pricesUpTo l₁ D = pricesUpTo l₂ D) :
    Momentum.get_price_on_or_before l₁ D = Momentum.get_price_on_or_before l₂ D := by
  unfold pricesUpTo at h
  unfold Momentum.get_price_on_or_before
  rw [filter_sub_agree (fun r : PriceRow => r.d) (fun r => decide (r.d ≤ D)) D
    (fun x hx => by simpa using hx) l₁ l₂ h]

/-- The lookback session window reads only prices dated on or before the date. -/
theorem session_window_agree (l₁ l₂ : List PriceRow) (D : ℤ) (n : ℕ)
    (h : pricesUpTo l₁ D = pricesUpTo l₂ D) :
    Momentum.sessionWindow l₁ D n = Momentum.sessionWindow l₂ D n := by
  unfold pricesUpTo at h
  unfold Momentum.sessionWindow
  rw [filter_sub_agree (fun r : PriceRow => r.d)
    (fun r => decide (D - ((n : ℤ) + 90) ≤ r.d) && decide (r.d ≤ D) && r.close.isSome) D
    (fun x hx => by simp at hx; exact hx.1.2) l₁ l₂ h]

/-- The lookback price reads only prices dated on or before the date. -/
theorem n_days_agree (l₁ l₂ : List PriceRow) (D : ℤ) (n : ℕ)
    (h : pricesUpTo l₁ D = pricesUpTo l₂ D) :
    Momentum.get_price_n_days_before l₁ D n = Momentum.get_price_n_days_before l₂ D n := by
  unfold Momentum.get_price_n_days_before
  rw [session_window_agree l₁ l₂ D n h]

/-- The 3-month average volume reads only prices dated on or before the date. -/
theorem avg_volume_agree (l₁ l₂ : List PriceRow) (D : ℤ)
    (h : pricesUpTo l₁ D = pricesUpTo l₂ D) :
    Momentum.get_avg_volume_3m l₁ D = Momentum.get_avg_volume_3m l₂ D := by
  unfold pricesUpTo at h
  unfold Momentum.get_avg_volume_3m
  rw [filter_sub_agree (fun r : PriceRow => r.d)
    (fun r => decide (D - 90 ≤ r.d) && decide (r.d ≤ D) && r.volume.isSome) D
    (fun x hx => by simp at hx; exact hx.1.2) l₁ l₂ h]

/-- The current-quarter lookup reads only facts with period_ending on or before. -/
theorem quarter_value_agree (l₁ l₂ : List FactRow) (D : ℤ)
    (h : factsUpTo l₁ D = factsUpTo l₂ D) :
    Fundamental.get_quarter_value l₁ D = Fundamental.get_quarter_value l₂ D := by
  unfold factsUpTo at h
  unfold Fundamental.get_quarter_value Fundamental.latestFact
  rw [filter_sub_agree (fun r : FactRow => r.pe)
    (fun r => decide (r.pe ≤ D) && r.val.isSome) D
    (fun x hx => by simp at hx; exact hx.1) l₁ l₂ h]

/-- The previous-quarter lookup reads only facts with period_ending strictly before,
hence on or before. -/
theorem prev_quarter_agree (l₁ l₂ : List FactRow) (D : ℤ)
    (h : factsUpTo l₁ D = factsUpTo l₂ D) :
    Fundamental.get_previous_quarter_value l₁ D =
      Fundamental.get_previous_quarter_value l₂ D := by
  unfold factsUpTo at h
  unfold Fundamental.get_previous_quarter_value
  rw [filter_sub_agree (fun r : FactRow => r.pe)
    (fun r => decide (r.pe < D) && r.val.isSome) D
    (fun x hx => by simp at hx; exact le_of_lt hx.1) l₁ l₂ h]

/-- C1: point-in-time noninterference — every per-instrument signal computed at
as_of_date D reads only price rows dated on or before D and facts with period_ending
on or before D; two stores that agree on those rows produce identical TTM EPS,
valuation snapshots, momentum lookbacks, average volume, and fundamental inputs and
ratios at D, so perturbing any row dated after D changes no output attributed to D. -/
theorem signals_point_in_time (s₁ s₂ : Store) (D : ℤ) (h : agreeUpTo s₁ s₂ D) :
    Valuation.get_strict_ttm_eps s₁.dilEpsQ D = Valuation.get_strict_ttm_eps s₂.dilEpsQ D ∧
    Valuation.get_entry_price s₁.prices D = Valuation.get_entry_price s₂.prices D ∧
    Valuation.snapshotRow s₁.dilEpsQ s₁.prices D =
      Valuation.snapshotRow s₂.dilEpsQ s₂.prices D ∧
    Momentum.get_price_on_or_before s₁.prices D = Momentum.get_price_on_or_before s₂.prices D ∧
    (∀ n : ℕ, Momentum.get_price_n_days_before s₁.prices D n =
      Momentum.get_price_n_days_before s₂.prices D n) ∧
    Momentum.get_avg_volume_3m s₁.prices D = Momentum.get_avg_volume_3m s₂.prices D ∧
    Momentum.momentumRow s₁.prices D = Momentum.momentumRow s₂.prices D ∧
    Fundamental.get_quarter_value s₁.basicEpsQ D = Fundamental.get_quarter_value s₂.basicEpsQ D ∧
    Fundamental.get_previous_quarter_value s₁.basicEpsQ D =
      Fundamental.get_previous_quarter_value s₂.basicEpsQ D ∧
    Fundamental.fundamentalRow s₁.basicEpsQ s₁.revQ s₁.niQ s₁.equityQ s₁.debtQ s₁.fcfQ D =
      Fundamental.fundamentalRow s₂.basicEpsQ s₂.revQ s₂.niQ s₂.equityQ s₂.debtQ s₂.fcfQ D := by
  obtain ⟨hpr, hdil, hbas, hrev, hni, heq, hdebt, hfcf⟩ := h
  refine ⟨ttm_agree _ _ D hdil, entry_price_agree _ _ D hpr, ?_,
    on_or_before_agree _ _ D hpr, fun n => n_days_agree _ _ D n hpr,
    avg_volume_agree _ _ D hpr, ?_, quarter_value_agree _ _ D hbas,
    prev_quarter_agree _ _ D hbas, ?_⟩
  · unfold Valuation.snapshotRow
    rw [ttm_agree _ _ D hdil, entry_price_agree _ _ D hpr]
  · unfold Momentum.momentumRow
    rw [on_or_before_agree _ _ D hpr, n_days_agree _ _ D 63 hpr, n_days_agree _ _ D 126 hpr,
      n_days_agree _ _ D 252 hpr, avg_volume_agree _ _ D hpr]
  · unfold Fundamental.fundamentalRow
    rw [quarter_value_agree _ _ D hbas, prev_quarter_agree _ _ D hbas,
      quarter_value_agree _ _ D hrev, prev_quarter_agree _ _ D hrev,
      quarter_value_agree _ _ D hni, quarter_value_agree _ _ D heq,
      quarter_value_agree _ _ D hdebt, quarter_value_agree _ _ D hfcf]

set_option maxRecDepth 40000 in
/-- C1 witness: two stores that agree on everything dated on or before 100 but differ
in rows dated 200 yield identical snapshot, momentum and fundamental rows at 100. -/
theorem signals_point_in_time_witness :
    agreeUpTo demoStoreA demoStoreB 100 ∧
    Valuation.snapshotRow demoStoreA.dilEpsQ demoStoreA.prices 100 =
      Valuation.snapshotRow demoStoreB.dilEpsQ demoStoreB.prices 100 ∧
    Momentum.momentumRow demoStoreA.prices 100 = Momentum.momentumRow demoStoreB.prices 100 ∧
    Fundamental.fundamentalRow demoStoreA.basicEpsQ demoStoreA.revQ demoStoreA.niQ
      demoStoreA.equityQ demoStoreA.debtQ demoStoreA.fcfQ 100 =
      Fundamental.fundamentalRow demoStoreB.basicEpsQ demoStoreB.revQ demoStoreB.niQ
      demoStoreB.equityQ demoStoreB.debtQ demoStoreB.fcfQ 100 :=
  ⟨by unfold agreeUpTo; with_unfolding_all decide,
   (signals_point_in_time demoStoreA demoStoreB 100
     (by unfold agreeUpTo; with_unfolding_all decide)).2.2.1,
   (signals_point_in_time demoStoreA demoStoreB 100
     (by unfold agreeUpTo; with_unfolding_all decide)).2.2.2.2.2.2.1,
   (signals_point_in_time demoStoreA demoStoreB 100
     (by unfold agreeUpTo; with_unfolding_all decide)).2.2.2.2.2.2.2.2.2⟩

/-- z-scores of a constant column are all zero (the stddev-zero branch). -/
theorem compute_zscores_replicate (n : ℕ) (c : ℝ) :
    Composite.compute_zscores (List.replicate n c) = List.replicate n 0 := by
  cases n with
  | zero => rfl
  | succ m =>
    have hmean : Composite.npMean (List.replicate (m + 1) c) = c := by
      unfold Composite.npMean
      rw [List.sum_replicate, List.length_replicate, nsmul_eq_mul]
      field_simp
    have hstd : Composite.npStd (List.replicate (m + 1) c) = 0 := by
      unfold Composite.npStd
      rw [hmean, List.map_replicate]
      have h2 : ((c - c) ^ 2 : ℝ) = 0 := by ring
      rw [h2]
      have h0 : Composite.npMean (List.replicate (m + 1) (0 : ℝ)) = 0 := by
        unfold Composite.npMean
        rw [List.sum_replicate]
        simp
      rw [h0, Real.sqrt_zero]
    unfold Composite.compute_zscores
    rw [hstd, hmean, List.map_replicate]
    norm_num

/-- Rounding an integer-valued real is the identity. -/
theorem rheR_intCast (z : ℤ) : Composite.rheR (z : ℝ) = z := by
  unfold Composite.rheR
  rw [Int.floor_intCast]
  norm_num

/-- round4R fixes 0. -/
theorem round4R_zero : Composite.round4R 0 = 0 := by
  unfold Composite.round4R
  rw [show ((0 : ℝ) * 10000) = ((0 : ℤ) : ℝ) by norm_num, rheR_intCast]
  norm_num

/-- round4R fixes 1. -/
theorem round4R_one : Composite.round4R 1 = 1 := by
  unfold Composite.round4R
  rw [show ((1 : ℝ) * 10000) = ((10000 : ℤ) : ℝ) by norm_num, rheR_intCast]
  norm_num

/-- round4R maps 2/3 to 0.6667 (the stored percentile of rank 2 in a cohort of 4). -/
theorem round4R_two_thirds : Composite.round4R (2 / 3) = 6667 / 10000 := by
  unfold Composite.round4R Composite.rheR
  have hfl : ⌊(2 : ℝ) / 3 * 10000⌋ = (6666 : ℤ) := by
    rw [Int.floor_eq_iff]
    constructor <;> norm_num
  rw [hfl, if_neg (by norm_num), if_pos (by norm_num)]
  norm_num

/-- round4R maps 1/3 to 0.3333. -/
theorem round4R_third : Composite.round4R (1 / 3) = 3333 / 10000 := by
  unfold Composite.round4R Composite.rheR
  have hfl : ⌊(1 : ℝ) / 3 * 10000⌋ = (3333 : ℤ) := by
    rw [Int.floor_eq_iff]
    constructor <;> norm_num
  rw [hfl, if_pos (by norm_num)]
  norm_num

/-- Full evaluation of the composite pipeline on the constant four-instrument cohort:
all z-scores are 0, all scores 0, the stable sort preserves the input order, and the
stored percentiles are the ROUNDED values 1, 0.6667, 0.3333, 0. -/
theorem processQuarter_demo :
    Composite.process_quarter Composite.demoRows =
      [⟨"A", 0, 1, 1⟩, ⟨"B", 0, 2, 6667 / 10000⟩,
       ⟨"C", 0, 3, 3333 / 10000⟩, ⟨"D", 0, 4, 0⟩] := by
  have hzV : Composite.zOf (·.valuationSignal) Composite.demoRows = List.replicate 4 0 := by
    unfold Composite.zOf
    rw [show ((Composite.cohortRows Composite.demoRows).map fun r =>
      (r.valuationSignal).getD 0) = List.replicate 4 (1 : ℝ) from rfl]
    exact compute_zscores_replicate 4 1
  have hz3 : Composite.zOf (·.m3) Composite.demoRows = List.replicate 4 0 := by
    unfold Composite.zOf
    rw [show ((Composite.cohortRows Composite.demoRows).map fun r =>
      (r.m3).getD 0) = List.replicate 4 (1 : ℝ) from rfl]
    exact compute_zscores_replicate 4 1
  have hz6 : Composite.zOf (·.m6) Composite.demoRows = List.replicate 4 0 := by
    unfold Composite.zOf
    rw [show ((Composite.cohortRows Composite.demoRows).map fun r =>
      (r.m6).getD 0) = List.replicate 4 (1 : ℝ) from rfl]
    exact compute_zscores_replicate 4 1
  have hz12 : Composite.zOf (·.m12) Composite.demoRows = List.replicate 4 0 := by
    unfold Composite.zOf
    rw [show ((Composite.cohortRows Composite.demoRows).map fun r =>
      (r.m12).getD 0) = List.replicate 4 (1 : ℝ) from rfl]
    exact compute_zscores_replicate 4 1
  have hzE : Composite.zOf (·.epsGrowth) Composite.demoRows = List.replicate 4 0 := by
    unfold Composite.zOf
    rw [show ((Composite.cohortRows Composite.demoRows).map fun r =>
      (r.epsGrowth).getD 0) = List.replicate 4 (1 : ℝ) from rfl]
    exact compute_zscores_replicate 4 1
  have hzR : Composite.zOf (·.revGrowth) Composite.demoRows = List.replicate 4 0 := by
    unfold Composite.zOf
    rw [show ((Composite.cohortRows Composite.demoRows).map fun r =>
      (r.revGrowth).getD 0) = List.replicate 4 (1 : ℝ) from rfl]
    exact compute_zscores_replicate 4 1
  have hzRoe : Composite.zOf (·.roe) Composite.demoRows = List.replicate 4 0 := by
    unfold Composite.zOf
    rw [show ((Composite.cohortRows Composite.demoRows).map fun r =>
      (r.roe).getD 0) = List.replicate 4 (1 : ℝ) from rfl]
    exact compute_zscores_replicate 4 1
  have hzNM : Composite.zOf (·.netMargin) Composite.demoRows = List.replicate 4 0 := by
    unfold Composite.zOf
    rw [show ((Composite.cohortRows Composite.demoRows).map fun r =>
      (r.netMargin).getD 0) = List.replicate 4 (1 : ℝ) from rfl]
    exact compute_zscores_replicate 4 1
  have hscores : Composite.scoresList Composite.demoRows =
      [("A", (0 : ℝ)), ("B", 0), ("C", 0), ("D", 0)] := by
    simp only [Composite.scoresList]
    rw [hzE, hzR, hzRoe, hzNM, hz3, hz6, hz12, hzV]
    rw [show (Composite.cohortRows Composite.demoRows).length = 4 from rfl,
      show List.range 4 = [0, 1, 2, 3] from rfl]
    simp only [List.map_cons, List.map_nil]
    norm_num [round4R_zero]
    refine ⟨rfl, rfl, rfl, rfl⟩
  have hsort : (([("A", (0 : ℝ)), ("B", 0), ("C", 0), ("D", 0)] :
      List (String × ℝ)).insertionSort fun a b => b.2 ≤ a.2) =
      [("A", (0 : ℝ)), ("B", 0), ("C", 0), ("D", 0)] := by
    simp [List.insertionSort, List.orderedInsert]
  simp only [Composite.process_quarter]
  rw [hscores, hsort]
  rw [show ([("A", (0 : ℝ)), ("B", 0), ("C", 0), ("D", 0)] :
    List (String × ℝ)).enum = [(0, ("A", (0 : ℝ))), (1, ("B", 0)), (2, ("C", 0)),
      (3, ("D", 0))] from rfl]
  simp only [List.map_cons, List.map_nil, List.length_cons, List.length_nil]
  norm_num [round4R_zero, round4R_one, round4R_two_thirds, round4R_third]

/-- C9: counterexample — in a cohort of four instruments with identical feature
vectors, every z-score is 0 and every composite score 0; the stored percentile of the
rank-2 instrument is round((4-2)/(4-1), 4) = 0.6667, which is NOT the claim's
(N - rank)/(N - 1) = 2/3: the stored score and percentile are rounded to 4 decimals. -/
theorem composite_rounding_counterexample :
    (Composite.process_quarter Composite.demoRows)[1]? =
      some ⟨"B", 0, 2, 6667 / 10000⟩ ∧
    ((6667 : ℝ) / 10000) ≠ ((4 : ℝ) - 2) / ((4 : ℝ) - 1) := by
  constructor
  · rw [processQuarter_demo]
    rfl
  · norm_num

instance : IsTotal (String × ℝ) fun a b => b.2 ≤ a.2 := ⟨fun a b => le_total b.2 a.2⟩

instance : IsTrans (String × ℝ) fun a b => b.2 ≤ a.2 := ⟨fun _ _ _ h1 h2 => le_trans h2 h1⟩

/-- C9 (amended): the composite pipeline stores ROUNDED values — the output rows'
(ticker, score) pairs are a permutation of the cohort's scored pairs; the output is
sorted by score descending; rank is the 1-based position; the stored percentile is
round4((N - rank)/(N - 1)) for cohort size N > 1, else 0; and each cohort entry's
score is round4 of the sum of the z-scores of eps_growth, revenue_growth, roe,
net_margin and the three momentum windows minus the z-score of valuation_signal,
where a feature's z-score is (x - mean)/stddev, or 0 when the cohort stddev is 0. -/
theorem composite_scoring_pipeline (rows : List Composite.CInput) :
    ((Composite.process_quarter rows).map fun c => (c.ticker, c.score)).Perm
      (Composite.scoresList rows) ∧
    List.Sorted (fun a b : Composite.CScore => b.score ≤ a.score)
      (Composite.process_quarter rows) ∧
    (∀ i : ℕ, i < (Composite.process_quarter rows).length →
      ((Composite.process_quarter rows).getD i ⟨"", 0, 0, 0⟩).rank = i + 1 ∧
      ((Composite.process_quarter rows).getD i ⟨"", 0, 0, 0⟩).percentile =
        (if 1 < (Composite.process_quarter rows).length then
          Composite.round4R ((((Composite.process_quarter rows).length : ℝ) - ((i : ℝ) + 1)) /
            (((Composite.process_quarter rows).length : ℝ) - 1))
         else 0)) ∧
    (∀ i : ℕ, i < (Composite.cohortRows rows).length →
      (Composite.scoresList rows).getD i ("", 0) =
        (((Composite.cohortRows rows).getD i Composite.blankRow).ticker,
         Composite.round4R ((Composite.zOf (·.epsGrowth) rows).getD i 0 +
           (Composite.zOf (·.revGrowth) rows).getD i 0 +
           (Composite.zOf (·.roe) rows).getD i 0 +
           (Composite.zOf (·.netMargin) rows).getD i 0 +
           (Composite.zOf (·.m3) rows).getD i 0 +
           (Composite.zOf (·.m6) rows).getD i 0 +
           (Composite.zOf (·.m12) rows).getD i 0 -
           (Composite.zOf (·.valuationSignal) rows).getD i 0))) := by
  have hlen : (Composite.process_quarter rows).length =
      ((Composite.scoresList rows).insertionSort fun a b => b.2 ≤ a.2).length := by
    simp only [Composite.process_quarter]
    rw [List.length_map, List.enum_length]
  refine ⟨?_, ?_, ?_, ?_⟩
  · have hmap : (Composite.process_quarter rows).map (fun c => (c.ticker, c.score)) =
        (Composite.scoresList rows).insertionSort fun a b => b.2 ≤ a.2 := by
      simp only [Composite.process_quarter]
      rw [List.map_map]
      refine Eq.trans ?_ (List.enum_map_snd ((Composite.scoresList rows).insertionSort
        fun a b => b.2 ≤ a.2))
      exact List.map_congr_left fun p _ => rfl
    rw [hmap]
    exact List.perm_insertionSort _ _
  · have h0 := List.sorted_insertionSort (fun a b : String × ℝ => b.2 ≤ a.2)
      (Composite.scoresList rows)
    have h1 : List.Pairwise (fun p q : ℕ × String × ℝ => q.2.2 ≤ p.2.2)
        ((Composite.scoresList rows).insertionSort fun a b => b.2 ≤ a.2).enum := by
      have h2 := h0
      rw [← List.enum_map_snd ((Composite.scoresList rows).insertionSort
        fun a b => b.2 ≤ a.2)] at h2
      exact (List.pairwise_map.mp h2).imp fun h => h
    simp only [Composite.process_quarter]
    exact List.pairwise_map.mpr (h1.imp fun h => h)
  · intro i hi
    have hi' : i < ((Composite.scoresList rows).insertionSort
        fun a b => b.2 ≤ a.2).length := by
      rw [← hlen]; exact hi
    have hget : ((Composite.scoresList rows).insertionSort fun a b => b.2 ≤ a.2)[i]? =
        some (((Composite.scoresList rows).insertionSort
          fun a b => b.2 ≤ a.2).get ⟨i, hi'⟩) := List.getElem?_eq_getElem hi'
    have hq : (Composite.process_quarter rows)[i]? = some
        ⟨(((Composite.scoresList rows).insertionSort fun a b => b.2 ≤ a.2).get ⟨i, hi'⟩).1,
         (((Composite.scoresList rows).insertionSort fun a b => b.2 ≤ a.2).get ⟨i, hi'⟩).2,
         i + 1,
         if 1 < ((Composite.scoresList rows).insertionSort
             fun a b => b.2 ≤ a.2).length then
           Composite.round4R (((((Composite.scoresList rows).insertionSort
             fun a b => b.2 ≤ a.2).length : ℝ) - ((i : ℝ) + 1)) /
             ((((Composite.scoresList rows).insertionSort
               fun a b => b.2 ≤ a.2).length : ℝ) - 1))
         else 0⟩ := by
      simp only [Composite.process_quarter]
      rw [List.getElem?_map, List.getElem?_enum, hget]
      rfl
    have hD : (Composite.process_quarter rows).getD i ⟨"", 0, 0, 0⟩ =
        ⟨(((Composite.scoresList rows).insertionSort fun a b => b.2 ≤ a.2).get ⟨i, hi'⟩).1,
         (((Composite.scoresList rows).insertionSort fun a b => b.2 ≤ a.2).get ⟨i, hi'⟩).2,
         i + 1,
         if 1 < ((Composite.scoresList rows).insertionSort
             fun a b => b.2 ≤ a.2).length then
           Composite.round4R (((((Composite.scoresList rows).insertionSort
             fun a b => b.2 ≤ a.2).length : ℝ) - ((i : ℝ) + 1)) /
             ((((Composite.scoresList rows).insertionSort
               fun a b => b.2 ≤ a.2).length : ℝ) - 1))
         else 0⟩ := by
      rw [List.getD_eq_getElem?_getD, hq]
      rfl
    rw [hD, hlen]
    exact ⟨rfl, rfl⟩
  · intro i hi
    simp only [Composite.scoresList]
    rw [List.getD_eq_getElem?_getD, List.getElem?_map, List.getElem?_range hi]
    rfl

/-- C9 witness: the amended statement at the constant four-instrument cohort — the
output pairs are a permutation of the cohort scores, the rank-2 row has rank 2, and
its stored percentile is the ROUNDED round4((4 - 2)/(4 - 1)). -/
theorem composite_scoring_pipeline_witness :
    ((Composite.process_quarter Composite.demoRows).map fun c =>
      (c.ticker, c.score)).Perm (Composite.scoresList Composite.demoRows) ∧
    1 < (Composite.process_quarter Composite.demoRows).length ∧
    ((Composite.process_quarter Composite.demoRows).getD 1 ⟨"", 0, 0, 0⟩).rank = 1 + 1 ∧
    ((Composite.process_quarter Composite.demoRows).getD 1 ⟨"", 0, 0, 0⟩).percentile =
      (if 1 < (Composite.process_quarter Composite.demoRows).length then
        Composite.round4R ((((Composite.process_quarter Composite.demoRows).length : ℝ) -
          (((1 : ℕ) : ℝ) + 1)) / (((Composite.process_quarter
            Composite.demoRows).length : ℝ) - 1))
       else 0) :=
  ⟨(composite_scoring_pipeline Composite.demoRows).1,
   by rw [processQuarter_demo]; norm_num,
   ((composite_scoring_pipeline Composite.demoRows).2.2.1 1
     (by rw [processQuarter_demo]; norm_num)).1,
   ((composite_scoring_pipeline Composite.demoRows).2.2.1 1
     (by rw [processQuarter_demo]; norm_num)).2⟩
